import Mathlib

set_option linter.unusedVariables false

/-!
Verification of the PROXY-protocol core of the zoraxy-proxy-protocol plugin.

The Go code is shallowly embedded: byte slices become `List Nat` (each entry a
byte value, < 256 for real data), Go strings become Lean `String`, and the
`(value, error)` pairs of the parsers become `Except String`.  The buffered
reader (`bufio.Reader`) used by the parsers is modelled by explicit positions
into the input list, reproducing its semantics at the call sites that occur in
the code: a `Read` into an n-byte slice returns fewer than n bytes without an
error when only part of the data is available (the untouched tail of the Go
buffer keeps its zero value), and fails only when no byte at all is available;
`ReadByte` fails exactly at end of input; `ReadString('\n')` returns the bytes
up to and including the first newline and fails when there is none.
-/

/-- Byte values of a Lean string; the strings occurring in the code are ASCII,
so one character is one byte, as in Go. -/
def strBytes (s : String) : List Nat := s.data.map Char.toNat

/-- Go `string(b)` for a byte slice (ASCII data). -/
def bytesToString (l : List Nat) : String := String.mk (l.map Char.ofNat)

/-- The constant `ProxyProtocolV1Prefix = "PROXY "`. -/
def ProxyProtocolV1Prefix : List Nat := strBytes "PROXY "

/-- The constant `ProxyProtocolV2Prefix`, the fixed 12-byte v2 signature
0D 0A 0D 0A 00 0D 0A 51 55 49 54 0A. -/
def ProxyProtocolV2Prefix : List Nat := [13, 10, 13, 10, 0, 13, 10, 81, 85, 73, 84, 10]

/-- Go `bytes.HasPrefix data pre`. -/
def hasPrefixBytes (data pre : List Nat) : Bool := data.take pre.length == pre

/-- Whitespace bytes trimmed by `strings.TrimSpace` and split on by
`strings.Fields` (ASCII white space; the inputs at hand are ASCII). -/
def isSpaceByte (b : Nat) : Bool :=
  b == 32 || b == 9 || b == 10 || b == 11 || b == 12 || b == 13

/-- Go `strings.TrimSpace` on bytes. -/
def trimSpaceBytes (l : List Nat) : List Nat :=
  ((l.dropWhile isSpaceByte).reverse.dropWhile isSpaceByte).reverse

/-- Go `strings.Split(s, sep)` for a one-byte separator, generalised to a
predicate: split at every matching byte, keeping empty fields. -/
def splitOnP (p : Nat → Bool) : List Nat → List (List Nat)
  | [] => [[]]
  | b :: rest =>
    match splitOnP p rest with
    | [] => [[]]
    | f :: fs => if p b then [] :: f :: fs else (b :: f) :: fs

/-- Go `strings.Fields`: the non-empty maximal runs between white space. -/
def fieldsBytes (l : List Nat) : List (List Nat) :=
  (splitOnP isSpaceByte l).filter (fun f => !f.isEmpty)

/-- Index of the first occurrence of a byte (`ReadString` uses the first '\n'). -/
def indexOfByte (t : Nat) : List Nat → Option Nat
  | [] => none
  | b :: rest => if b == t then some 0 else (indexOfByte t rest).map (· + 1)

/-- Go `bytes.Index(data, []byte("\r\n"))`: index of the first CR-LF pair. -/
def indexOfCRLF : List Nat → Option Nat
  | [] => none
  | [_] => none
  | b1 :: b2 :: rest =>
    if b1 == 13 && b2 == 10 then some 0
    else (indexOfCRLF (b2 :: rest)).map (· + 1)

/-- ASCII decimal digit. -/
def isDigitByte (b : Nat) : Bool := 48 ≤ b && b ≤ 57

/-- Value of a most-significant-first string of decimal digit bytes. -/
def digitsVal (l : List Nat) : Nat := l.foldl (fun acc b => acc * 10 + (b - 48)) 0

/-- Model of `fmt.Sscanf(s, "%d", &x)` as used by the v1 parser: skip leading
white space, accept an optional sign, then a maximal run of decimal digits.
When no digit is found the scan fails and `x` keeps its zero value — the code
ignores the returned error, so the model returns the default 0 instead. -/
def sscanfInt (s : List Nat) : Int :=
  match s.dropWhile isSpaceByte with
  | [] => 0
  | c :: rest =>
    if c == 45 then
      let ds := rest.takeWhile isDigitByte
      if ds.isEmpty then 0 else -(digitsVal ds : Int)
    else if c == 43 then
      let ds := rest.takeWhile isDigitByte
      if ds.isEmpty then 0 else (digitsVal ds : Int)
    else
      let ds := (c :: rest).takeWhile isDigitByte
      if ds.isEmpty then 0 else (digitsVal ds : Int)

/-- The `ProxyProtocolInfo` struct (the `OriginalRequest` pointer plays no role
in the parsing layer and is omitted). -/
structure ProxyProtocolInfo where
  SourceAddr : String
  DestAddr : String
  SourcePort : Int
  DestPort : Int
  Version : Nat
  TransportProto : String
deriving Repr, DecidableEq

instance {ε α : Type} [DecidableEq ε] [DecidableEq α] : DecidableEq (Except ε α) := fun
  | .ok a, .ok b => if h : a = b then .isTrue (by rw [h]) else .isFalse (by simp [h])
  | .ok _, .error _ => .isFalse (by simp)
  | .error _, .ok _ => .isFalse (by simp)
  | .error a, .error b => if h : a = b then .isTrue (by rw [h]) else .isFalse (by simp [h])

/-- The v1 parser `parseProxyProtocolV1`, reading from the start of `data`:
read one line up to and including the first newline, trim white space, split
on single spaces, require at least 6 fields with the first equal to "PROXY";
ports are scanned with `Sscanf` whose error is ignored. -/
def parseProxyProtocolV1 (data : List Nat) : Except String ProxyProtocolInfo :=
  match indexOfByte 10 data with
  | none => .error "EOF"
  | some i =>
    let line := trimSpaceBytes (data.take (i + 1))
    match splitOnP (fun b => b == 32) line with
    | p0 :: p1 :: p2 :: p3 :: p4 :: p5 :: _ =>
      if bytesToString p0 ≠ "PROXY" then
        .error ("invalid Proxy Protocol v1 prefix: " ++ bytesToString p0)
      else
        .ok ⟨bytesToString p2, bytesToString p3, sscanfInt p4, sscanfInt p5, 1,
             bytesToString p1⟩
    | _ => .error "invalid Proxy Protocol v1 header"

/-- Least-significant-first decimal digits; the fuel argument only serves
structural recursion (any fuel at least the digit count works, and `fuel = n`
is always enough). -/
def natDigitsRev : Nat → Nat → List Nat
  | 0, _ => []
  | fuel + 1, n => if n = 0 then [] else n % 10 :: natDigitsRev fuel (n / 10)

/-- Decimal byte string of a natural number, as printed by Go's `%d`. -/
def natDecimal (n : Nat) : List Nat :=
  if n = 0 then [48] else (natDigitsRev n n).reverse.map (· + 48)

/-- Join byte fields with a one-byte separator (inverse of `splitOnP`). -/
def joinWithByte (c : Nat) : List (List Nat) → List Nat
  | [] => []
  | [f] => f
  | f :: g :: fs => f ++ c :: joinWithByte c (g :: fs)

/-- Byte string of the dotted quad `fmt.Sprintf("%d.%d.%d.%d", a, b, c, d)`. -/
def ipv4DottedBytes (a b c d : Nat) : List Nat :=
  natDecimal a ++ 46 :: (natDecimal b ++ 46 :: (natDecimal c ++ 46 :: natDecimal d))

/-- Lower-case hex digit byte for a nibble. -/
def hexDigitByte (n : Nat) : Nat := if n < 10 then 48 + n else 87 + n

/-- Go's `appendHex` for one 16-bit group: lower-case hex without leading
zeros, "0" for the zero group. -/
def hexGroupBytes (v : Nat) : List Nat :=
  let ds := [v / 4096 % 16, v / 256 % 16, v / 16 % 16, v % 16].dropWhile (· == 0)
  if ds.isEmpty then [48] else ds.map hexDigitByte

/-- Maximal runs of zero groups with their start index; the fuel argument only
serves structural recursion (each step consumes at least one element, so
`fuel = g.length` is always enough). -/
def zeroRunsAux : Nat → List Nat → Nat → List (Nat × Nat)
  | 0, _, _ => []
  | _ + 1, [], _ => []
  | fuel + 1, b :: rest, i =>
    if b = 0 then
      let r := 1 + (rest.takeWhile (· == 0)).length
      (i, r) :: zeroRunsAux fuel (rest.dropWhile (· == 0)) (i + r)
    else zeroRunsAux fuel rest (i + 1)

/-- The zero-run selection of Go's `net.IP.String`: the leftmost run of zero
groups of strictly greatest length, dropped when it covers at most one group
("::" must not shorten a single 16-bit field). -/
def bestZeroRun (g : List Nat) : Option (Nat × Nat) :=
  let best := (zeroRunsAux g.length g 0).foldl
    (fun acc r => if acc.2 < r.2 then r else acc) (0, 0)
  if best.2 ≤ 1 then none else some best

/-- All bytes zero (Go's `isZeros`). -/
def isZerosBytes (l : List Nat) : Bool := l.all (· == 0)

/-- Go's `net.IP.String()` for a 16-byte address, as invoked by the v2 parser:
an IPv4-mapped address (10 zero bytes then 0xff 0xff) prints as a dotted quad
via `To4`; otherwise the eight big-endian 16-bit groups print in lower-case
hex with the selected zero run compressed to "::". -/
def ipv6StringBytes (p : List Nat) : List Nat :=
  if isZerosBytes (p.take 10) && p.getD 10 0 == 255 && p.getD 11 0 == 255 then
    ipv4DottedBytes (p.getD 12 0) (p.getD 13 0) (p.getD 14 0) (p.getD 15 0)
  else
    let g := (List.range 8).map (fun i => p.getD (2 * i) 0 * 256 + p.getD (2 * i + 1) 0)
    match bestZeroRun g with
    | none => joinWithByte 58 (g.map hexGroupBytes)
    | some (s, len) =>
      joinWithByte 58 ((g.take s).map hexGroupBytes) ++ [58, 58] ++
        joinWithByte 58 ((g.drop (s + len)).map hexGroupBytes)

/-- The v2 parser `parseProxyProtocolV2`, reading from the start of `data`.
Positions into `data` model the buffered reader: the 12-byte signature read
consumes `min 12 data.length` bytes and fails only on empty input; each
`ReadByte` fails exactly at end of input; the two-byte length read and the
address-block read return short without error when only part is available,
leaving the zero-initialised tail of the destination slice in place (hence
the `getD _ 0` defaults and the explicit zero fill). -/
def parseProxyProtocolV2 (data : List Nat) : Except String ProxyProtocolInfo :=
  if data.length = 0 then .error "EOF" else
  let pos1 := if data.length < 12 then data.length else 12
  if data.length ≤ pos1 then .error "EOF" else
  let versionCmd := data.getD pos1 0
  let version := versionCmd / 16
  if version ≠ 2 then .error ("invalid Proxy Protocol version: " ++ toString version) else
  let command := versionCmd % 16
  if command ≠ 1 then .ok ⟨"", "", 0, 0, 2, "UNKNOWN"⟩ else
  let pos2 := pos1 + 1
  if data.length ≤ pos2 then .error "EOF" else
  let afProto := data.getD pos2 0
  let af := afProto / 16
  let pos3 := pos2 + 1
  if data.length ≤ pos3 then .error "EOF" else
  let addrLen := data.getD pos3 0 * 256 + data.getD (pos3 + 1) 0
  let pos4 := if data.length - pos3 < 2 then pos3 + (data.length - pos3) else pos3 + 2
  if addrLen ≠ 0 ∧ data.length ≤ pos4 then .error "EOF" else
  let avail := (data.drop pos4).take addrLen
  let addrData := avail ++ List.replicate (addrLen - avail.length) 0
  if af = 1 then
    if addrLen < 12 then .error ("IPv4 address data too short: " ++ toString addrLen)
    else
      .ok ⟨bytesToString (ipv4DottedBytes (addrData.getD 0 0) (addrData.getD 1 0)
              (addrData.getD 2 0) (addrData.getD 3 0)),
           bytesToString (ipv4DottedBytes (addrData.getD 4 0) (addrData.getD 5 0)
              (addrData.getD 6 0) (addrData.getD 7 0)),
           ((addrData.getD 8 0 * 256 + addrData.getD 9 0 : Nat) : Int),
           ((addrData.getD 10 0 * 256 + addrData.getD 11 0 : Nat) : Int), 2, "TCP4"⟩
  else if af = 2 then
    if addrLen < 36 then .error ("IPv6 address data too short: " ++ toString addrLen)
    else
      .ok ⟨bytesToString (ipv6StringBytes (addrData.take 16)),
           bytesToString (ipv6StringBytes ((addrData.drop 16).take 16)),
           ((addrData.getD 32 0 * 256 + addrData.getD 33 0 : Nat) : Int),
           ((addrData.getD 34 0 * 256 + addrData.getD 35 0 : Nat) : Int), 2, "TCP6"⟩
  else .error ("unsupported address family: " ++ toString af)

/-- The inner v2 check of `detectProxyProtocol`: exact 12-byte signature, at
least 16 bytes, version nibble 2, command nibble 0 (LOCAL) or 1 (PROXY). -/
def detectProxyProtocolV2Check (data : List Nat) : Bool :=
  if ProxyProtocolV2Prefix.length ≤ data.length
      && data.take ProxyProtocolV2Prefix.length == ProxyProtocolV2Prefix then
    if 16 ≤ data.length then
      let versionCmd := data.getD 12 0
      versionCmd / 16 == 2 && (versionCmd % 16 == 0 || versionCmd % 16 == 1)
    else false
  else false

/-- `detectProxyProtocol` (the revision carrying the additional validation,
which is the one the repository's tests exercise): a v1 match needs the
"PROXY " prefix, a CR-LF terminator, and at least 6 white-space-separated
fields starting with "PROXY"; otherwise the v2 signature check decides. -/
def detectProxyProtocol (data : List Nat) : Bool :=
  if data.length = 0 then false
  else
    if ProxyProtocolV1Prefix.length ≤ data.length
        && hasPrefixBytes data ProxyProtocolV1Prefix then
      match indexOfCRLF data with
      | some idx =>
        match fieldsBytes (data.take idx) with
        | p0 :: _ :: _ :: _ :: _ :: _ :: _ =>
          if bytesToString p0 = "PROXY" then true else detectProxyProtocolV2Check data
        | _ => detectProxyProtocolV2Check data
      | none => detectProxyProtocolV2Check data
    else detectProxyProtocolV2Check data

/-- Result triple of `processProxyProtocolData`; `remaining = none` models the
nil byte slice Go returns on the error paths. -/
structure ProcessResult where
  remaining : Option (List Nat)
  info : Option ProxyProtocolInfo
  err : Option String
deriving Repr, DecidableEq

/-- `processProxyProtocolData`: dispatch on the v1/v2 prefixes, run the
matching parser on a fresh reader over `data`, then strip the header by
slicing `data` itself (v1: up to and including the first CR-LF; v2: the
16-byte fixed part plus the declared address-block length read from bytes
14–15, after checking that the input really holds that many bytes). -/
def processProxyProtocolData (data : List Nat) : ProcessResult :=
  if data.length = 0 then ⟨some data, none, none⟩
  else if hasPrefixBytes data ProxyProtocolV1Prefix then
    match parseProxyProtocolV1 data with
    | .error e => ⟨none, none, some ("proxy protocol v1 parse error: " ++ e)⟩
    | .ok proxyInfo =>
      match indexOfCRLF data with
      | none => ⟨none, none, some "malformed proxy protocol v1 header: missing CRLF"⟩
      | some headerEnd => ⟨some (data.drop (headerEnd + 2)), some proxyInfo, none⟩
  else if hasPrefixBytes data ProxyProtocolV2Prefix then
    match parseProxyProtocolV2 data with
    | .error e => ⟨none, none, some ("proxy protocol v2 parse error: " ++ e)⟩
    | .ok proxyInfo =>
      if data.length < 16 then ⟨none, none, some "proxy protocol v2 header too short"⟩
      else
        let headerLen := 16 + data.getD 14 0 * 256 + data.getD 15 0
        if data.length < headerLen then
          ⟨none, none, some "proxy protocol v2 header incomplete"⟩
        else ⟨some (data.drop headerLen), some proxyInfo, none⟩
  else ⟨some data, none, none⟩

/-- Bytes consumed from the stream by a successful `parseProxyProtocolV2` run
(signature and version/command byte only for a non-PROXY command; otherwise
through the address block, short reads included). -/
def parseV2Consumed (S : List Nat) : Nat :=
  let pos1 := if S.length < 12 then S.length else 12
  if S.length ≤ pos1 then S.length
  else if (S.getD pos1 0) % 16 ≠ 1 then pos1 + 1
  else
    let pos3 := pos1 + 2
    let pos4 := if S.length - pos3 < 2 then pos3 + (S.length - pos3) else pos3 + 2
    let addrLen := S.getD pos3 0 * 256 + S.getD (pos3 + 1) 0
    if S.length - pos4 < addrLen then S.length else pos4 + addrLen

/-- Result of `ProxyProtocolListener.Accept` for one inbound connection:
which proxy info (if any) got attached, and the bytes a consumer can
subsequently read from the returned connection. -/
structure AcceptResult where
  proxyInfo : Option ProxyProtocolInfo
  readable : List Nat
deriving Repr, DecidableEq

/-- Model of `ProxyProtocolListener.Accept` on a connection whose incoming
byte stream is `S` (followed by end of stream).  `Accept` wraps the raw
connection in a `bufio.Reader` and peeks 14 bytes; the peek moves up to one
buffer's worth of bytes (4096, or all of `S` when shorter) out of the raw
connection into the reader's buffer.  On the no-header and parse-error paths
the code returns the raw connection and drops the `bufio.Reader`, so the
buffered bytes are gone from what the consumer can read; only on parser
success is the wrapped connection (whose `Read` goes through the buffered
reader) returned, making everything after the consumed header readable.
Deadlines and logging have no data effect and are not modelled. -/
def ProxyProtocolListenerAccept (S : List Nat) : AcceptResult :=
  let buffered := if S.length < 4096 then S.length else 4096
  if S.length < 14 then ⟨none, S.drop buffered⟩
  else
    let peek := S.take 14
    if hasPrefixBytes peek ProxyProtocolV1Prefix then
      match parseProxyProtocolV1 S with
      | .error _ => ⟨none, S.drop buffered⟩
      | .ok info =>
        let consumed := match indexOfByte 10 S with | some i => i + 1 | none => S.length
        ⟨some info, S.drop consumed⟩
    else if hasPrefixBytes peek ProxyProtocolV2Prefix then
      match parseProxyProtocolV2 S with
      | .error _ => ⟨none, S.drop buffered⟩
      | .ok info => ⟨some info, S.drop (parseV2Consumed S)⟩
    else ⟨none, S.drop buffered⟩

/-- First value under a key of an HTTP header map (Go `Header.Get`; "" when
absent). -/
def headerGet (h : List (String × String)) (k : String) : String :=
  match h.find? (fun kv => kv.1 == k) with
  | some kv => kv.2
  | none => ""

/-- Go `Header.Set`: replace any existing values under the key. -/
def headerSet (h : List (String × String)) (k v : String) : List (String × String) :=
  (k, v) :: h.filter (fun kv => kv.1 != k)

/-- The outward request representation seen by `ProxyProtocolMiddleware`:
remote address, header map, and whether the connection carries TLS. -/
structure Request where
  RemoteAddr : String
  headers : List (String × String)
  tls : Bool
deriving Repr, DecidableEq

/-- `ProxyProtocolMiddleware` on a request whose connection carries the given
parsed `ProxyProtocolInfo` (the non-proxy-protocol case leaves the request
untouched and is not modelled separately): override `RemoteAddr` with the
proxy source endpoint, set X-Forwarded-For only if absent, set X-Real-IP
unconditionally, and set X-Forwarded-Proto only if absent. -/
def ProxyProtocolMiddleware (info : ProxyProtocolInfo) (r : Request) : Request :=
  let remote := info.SourceAddr ++ ":" ++ toString info.SourcePort
  let h1 := if headerGet r.headers "X-Forwarded-For" = "" then
      headerSet r.headers "X-Forwarded-For" info.SourceAddr
    else r.headers
  let h2 := headerSet h1 "X-Real-IP" info.SourceAddr
  let h3 := if headerGet h2 "X-Forwarded-Proto" = "" then
      headerSet h2 "X-Forwarded-Proto" (if r.tls then "https" else "http")
    else h2
  { RemoteAddr := remote, headers := h3, tls := r.tls }

/-- Modelled from the spec: the v1 wire format of section 6,
"PROXY TCP4-or-TCP6-or-UNKNOWN src-ip dst-ip src-port dst-port CR LF"
(the repository contains no encoder; its tests write this line literally). -/
def encodeProxyProtocolV1 (info : ProxyProtocolInfo) : List Nat :=
  strBytes "PROXY" ++ 32 :: strBytes info.TransportProto ++
    32 :: strBytes info.SourceAddr ++ 32 :: strBytes info.DestAddr ++
    32 :: natDecimal info.SourcePort.toNat ++ 32 :: natDecimal info.DestPort.toNat ++
    [13, 10]

/-- Modelled from the spec: the v2 binary wire format of section 6 for an
AF_INET (TCP4) endpoint — signature, version/command 0x21, family/protocol
0x11, big-endian length 12, then src(4) dst(4) srcPort(2) dstPort(2).  The
repository contains no encoder; its tests build exactly this byte layout. -/
def encodeProxyProtocolV2IPv4 (src dst : List Nat) (sp dp : Nat) : List Nat :=
  ProxyProtocolV2Prefix ++ [0x21, 0x11, 0, 12] ++ src ++ dst ++
    [sp / 256, sp % 256, dp / 256, dp % 256]

/-- Modelled from the spec: the v2 binary wire format of section 6 for an
AF_INET6 (TCP6) endpoint — signature, version/command 0x21, family/protocol
0x21, big-endian length 36, then src(16) dst(16) srcPort(2) dstPort(2). -/
def encodeProxyProtocolV2IPv6 (src dst : List Nat) (sp dp : Nat) : List Nat :=
  ProxyProtocolV2Prefix ++ [0x21, 0x21, 0, 36] ++ src ++ dst ++
    [sp / 256, sp % 256, dp / 256, dp % 256]

/-- A canonical textual IPv4 literal: the dotted quad of four byte values,
exactly as the decoder itself prints one. -/
def IsCanonicalIPv4 (s : String) : Prop :=
  ∃ a b c d : Nat, a < 256 ∧ b < 256 ∧ c < 256 ∧ d < 256 ∧
    strBytes s = ipv4DottedBytes a b c d

/-- A canonical textual IPv6 literal: the canonical rendering (as produced by
Go's `net.IP.String`) of some 16-byte address. -/
def IsCanonicalIPv6 (s : String) : Prop :=
  ∃ p : List Nat, p.length = 16 ∧ (∀ b ∈ p, b < 256) ∧
    strBytes s = ipv6StringBytes p

/-- Bytes that can occur in a textual IPv4/IPv6 address literal: decimal and
hex digits, ':' and '.'.  Every well-formed address literal of either family
consists of these, which is all the v1 round trip needs, since the v1 parser
treats addresses as opaque tokens. -/
def isAddressByte (b : Nat) : Bool :=
  isDigitByte b || (97 ≤ b && b ≤ 102) || (65 ≤ b && b ≤ 70) || b == 58 || b == 46

/-- A non-empty token of address bytes (contains no white space, CR or LF). -/
def IsAddressToken (s : String) : Prop :=
  strBytes s ≠ [] ∧ ∀ b ∈ strBytes s, isAddressByte b = true

/-! ## Helper lemmas -/

lemma bytesToString_strBytes (s : String) : bytesToString (strBytes s) = s := by
  cases s with
  | mk data =>
    simp [bytesToString, strBytes, List.map_map, Function.comp_def, Char.ofNat_toNat]

lemma isDigit_not_space {b : Nat} (h : isDigitByte b = true) : isSpaceByte b = false := by
  simp only [isDigitByte, Bool.and_eq_true, decide_eq_true_eq] at h
  simp only [isSpaceByte, Bool.or_eq_false_iff, beq_eq_false_iff_ne, ne_eq]
  omega

lemma isAddr_not_space {b : Nat} (h : isAddressByte b = true) : isSpaceByte b = false := by
  simp only [isAddressByte, isDigitByte, Bool.or_eq_true, Bool.and_eq_true,
    decide_eq_true_eq, beq_iff_eq] at h
  simp only [isSpaceByte, Bool.or_eq_false_iff, beq_eq_false_iff_ne, ne_eq]
  omega

lemma splitOnP_ne_nil (p : Nat → Bool) (l : List Nat) : splitOnP p l ≠ [] := by
  induction l with
  | nil => simp [splitOnP]
  | cons b rest ih =>
    simp only [splitOnP]
    cases h : splitOnP p rest with
    | nil => simp
    | cons f fs => by_cases hb : p b <;> simp [hb]

lemma splitOnP_no_match (p : Nat → Bool) (l : List Nat) (h : ∀ b ∈ l, p b = false) :
    splitOnP p l = [l] := by
  induction l with
  | nil => rfl
  | cons b rest ih =>
    have hrest : splitOnP p rest = [rest] := ih (fun x hx => h x (List.mem_cons_of_mem b hx))
    have hb := h b (List.mem_cons_self b rest)
    simp [splitOnP, hrest, hb]

lemma splitOnP_sep (p : Nat → Bool) (c : Nat) (f r : List Nat)
    (hc : p c = true) (hf : ∀ b ∈ f, p b = false) :
    splitOnP p (f ++ c :: r) = f :: splitOnP p r := by
  induction f with
  | nil =>
    cases hsp : splitOnP p r with
    | nil => exact absurd hsp (splitOnP_ne_nil p r)
    | cons g gs => simp [splitOnP, hsp, hc]
  | cons b f' ih =>
    have hb := hf b (List.mem_cons_self b f')
    have ih' := ih (fun x hx => hf x (List.mem_cons_of_mem b hx))
    simp only [List.cons_append, splitOnP, List.append_eq]
    rw [ih']
    simp [hb]

lemma splitOnP_join (p : Nat → Bool) (c : Nat) (parts : List (List Nat))
    (hc : p c = true) (hf : ∀ f ∈ parts, ∀ b ∈ f, p b = false) (hp : parts ≠ []) :
    splitOnP p (joinWithByte c parts) = parts := by
  induction parts with
  | nil => exact absurd rfl hp
  | cons f fs ih =>
    cases fs with
    | nil =>
      simpa [joinWithByte] using splitOnP_no_match p f (hf f (List.mem_cons_self f []))
    | cons g gs =>
      have ihr : splitOnP p (joinWithByte c (g :: gs)) = g :: gs :=
        ih (fun x hx => hf x (List.mem_cons_of_mem f hx)) (by simp)
      rw [show joinWithByte c (f :: g :: gs) = f ++ c :: joinWithByte c (g :: gs) from rfl,
        splitOnP_sep p c _ _ hc (hf f (List.mem_cons_self f _)), ihr]

lemma joinWithByte_last (c : Nat) (parts : List (List Nat)) (hp : parts ≠ [])
    (hne : ∀ f ∈ parts, f ≠ []) :
    ∃ front t, joinWithByte c parts = front ++ [t] ∧ ∃ f, f ∈ parts ∧ t ∈ f := by
  induction parts with
  | nil => exact absurd rfl hp
  | cons f fs ih =>
    cases fs with
    | nil =>
      have hf : f ≠ [] := hne f (List.mem_cons_self f [])
      exact ⟨f.dropLast, f.getLast hf, by simp [joinWithByte, List.dropLast_append_getLast hf],
        f, List.mem_cons_self f [], List.getLast_mem hf⟩
    | cons g gs =>
      obtain ⟨front, t, hj, f', hf', ht⟩ :=
        ih (by simp) (fun x hx => hne x (List.mem_cons_of_mem f hx))
      refine ⟨f ++ c :: front, t, ?_, f', List.mem_cons_of_mem f hf', ht⟩
      rw [show joinWithByte c (f :: g :: gs) = f ++ c :: joinWithByte c (g :: gs) from rfl, hj]
      simp

lemma trimSpaceBytes_crlf (l : List Nat)
    (ha : ∃ a m, l = a :: m ∧ isSpaceByte a = false)
    (hb : ∃ front t, l = front ++ [t] ∧ isSpaceByte t = false) :
    trimSpaceBytes (l ++ [13, 10]) = l := by
  obtain ⟨a, m, hl1, hsa⟩ := ha
  obtain ⟨front, t, hl2, hst⟩ := hb
  unfold trimSpaceBytes
  have h1 : (l ++ [13, 10]).dropWhile isSpaceByte = l ++ [13, 10] := by
    rw [hl1]
    simp [List.dropWhile_cons, hsa]
  rw [h1]
  have h2 : (l ++ [13, 10]).reverse = 10 :: 13 :: l.reverse := by simp
  have h3 : l.reverse = t :: front.reverse := by rw [hl2]; simp
  rw [h2, h3]
  have hsp10 : isSpaceByte 10 = true := by decide
  have hsp13 : isSpaceByte 13 = true := by decide
  simp only [List.dropWhile_cons, hsp10, hsp13, if_true, hst, Bool.false_eq_true, if_false]
  rw [← h3, List.reverse_reverse]

lemma indexOfByte_sep (t : Nat) (l r : List Nat) (h : ∀ b ∈ l, (b == t) = false) :
    indexOfByte t (l ++ t :: r) = some l.length := by
  induction l with
  | nil => simp [indexOfByte]
  | cons b l' ih =>
    have hb := h b (List.mem_cons_self b l')
    have ih' := ih (fun x hx => h x (List.mem_cons_of_mem b hx))
    simp [indexOfByte, hb, ih']

lemma indexOfCRLF_sep (l r : List Nat) (h : ∀ b ∈ l, b ≠ 13) :
    indexOfCRLF (l ++ 13 :: 10 :: r) = some l.length := by
  induction l with
  | nil => simp [indexOfCRLF]
  | cons b l' ih =>
    have hb : (b == 13) = false := by simpa using h b (List.mem_cons_self b l')
    have ih' := ih (fun x hx => h x (List.mem_cons_of_mem b hx))
    cases hl : l' ++ 13 :: 10 :: r with
    | nil => exact absurd hl (by simp)
    | cons x xs =>
      simp only [List.cons_append, hl, indexOfCRLF, hb, Bool.false_and,
        Bool.false_eq_true, if_false]
      rw [← hl, ih']
      simp

lemma natDigitsRev_eq : ∀ (fuel n : Nat), n ≤ fuel → natDigitsRev fuel n = Nat.digits 10 n := by
  intro fuel
  induction fuel with
  | zero =>
    intro n hn
    interval_cases n
    simp [natDigitsRev]
  | succ fuel ih =>
    intro n hn
    by_cases h0 : n = 0
    · simp [natDigitsRev, h0]
    · have hpos : 0 < n := Nat.pos_of_ne_zero h0
      have hdiv : n / 10 ≤ fuel := by omega
      rw [show natDigitsRev (fuel + 1) n = n % 10 :: natDigitsRev fuel (n / 10) from by
        simp [natDigitsRev, h0]]
      rw [ih (n / 10) hdiv, Nat.digits_def' (by norm_num : (1:Nat) < 10) hpos]

lemma natDecimal_all_digits (n : Nat) : ∀ b ∈ natDecimal n, isDigitByte b = true := by
  intro b hb
  unfold natDecimal at hb
  by_cases h0 : n = 0
  · simp [h0] at hb
    simp [hb, isDigitByte]
  · simp only [h0, if_false, natDigitsRev_eq n n le_rfl, List.mem_map,
      List.mem_reverse] at hb
    obtain ⟨d, hd, rfl⟩ := hb
    have := Nat.digits_lt_base (by norm_num : (1:Nat) < 10) hd
    simp only [isDigitByte, Bool.and_eq_true, decide_eq_true_eq]
    omega

lemma natDecimal_ne_nil (n : Nat) : natDecimal n ≠ [] := by
  unfold natDecimal
  by_cases h0 : n = 0
  · simp [h0]
  · simp only [h0, if_false, natDigitsRev_eq n n le_rfl]
    simp [Nat.digits_ne_nil_iff_ne_zero, h0]

lemma foldr_eq_ofDigits (l : List Nat) :
    l.foldr (fun d acc => acc * 10 + d) 0 = Nat.ofDigits 10 l := by
  induction l with
  | nil => simp [Nat.ofDigits]
  | cons d t ih =>
    simp only [List.foldr_cons, ih, Nat.ofDigits_cons]
    ring

lemma digitsVal_natDecimal (n : Nat) : digitsVal (natDecimal n) = n := by
  by_cases h0 : n = 0
  · simp [h0, natDecimal, digitsVal]
  · unfold natDecimal digitsVal
    simp only [h0, if_false, natDigitsRev_eq n n le_rfl]
    rw [List.foldl_map, show (fun (acc b : Nat) => acc * 10 + (b + 48 - 48)) =
      (fun (acc b : Nat) => acc * 10 + b) from by funext acc b; omega]
    rw [List.foldl_reverse]
    rw [show (fun (x y : Nat) => y * 10 + x) = (fun (d acc : Nat) => acc * 10 + d) from rfl]
    rw [foldr_eq_ofDigits, Nat.ofDigits_digits]

lemma sscanfInt_natDecimal (n : Nat) : sscanfInt (natDecimal n) = (n : Int) := by
  obtain ⟨d, ds, hds⟩ := List.exists_cons_of_ne_nil (natDecimal_ne_nil n)
  have hall := natDecimal_all_digits n
  have hd : isDigitByte d = true := hall d (by rw [hds]; exact List.mem_cons_self d ds)
  have hd48 : 48 ≤ d ∧ d ≤ 57 := by
    simpa [isDigitByte, Bool.and_eq_true, decide_eq_true_eq] using hd
  have hdrop : (natDecimal n).dropWhile isSpaceByte = d :: ds := by
    rw [hds]
    simp [List.dropWhile_cons, isDigit_not_space hd]
  have htake : (d :: ds).takeWhile isDigitByte = d :: ds := by
    apply List.takeWhile_eq_self_iff.mpr
    intro b hb
    exact hall b (by rw [hds]; exact hb)
  have h45 : (d == 45) = false := by simp; omega
  have h43 : (d == 43) = false := by simp; omega
  unfold sscanfInt
  rw [hdrop]
  simp only [h45, h43, Bool.false_eq_true, if_false, htake]
  rw [show (d :: ds).isEmpty = false from rfl]
  simp only [Bool.false_eq_true, if_false]
  rw [← hds, digitsVal_natDecimal]

lemma find?_filter_ne (h : List (String × String)) (k k' : String) (hk : k' ≠ k) :
    (h.filter (fun kv => kv.1 != k)).find? (fun kv => kv.1 == k') =
      h.find? (fun kv => kv.1 == k') := by
  induction h with
  | nil => rfl
  | cons kv t ih =>
    by_cases hkv : kv.1 = k
    · have h1 : (kv.1 != k) = false := by simp [hkv]
      have h2 : (kv.1 == k') = false := by simp [hkv]; exact fun hc => hk hc.symm
      simp only [List.filter_cons, h1, Bool.false_eq_true, if_false, List.find?_cons, h2, ih]
    · have h1 : (kv.1 != k) = true := by simp [hkv]
      by_cases hkv' : kv.1 = k'
      · have h2 : (kv.1 == k') = true := by simp [hkv']
        simp only [List.filter_cons, h1, if_true, List.find?_cons, h2]
      · have h2 : (kv.1 == k') = false := by simp [hkv']
        simp only [List.filter_cons, h1, if_true, List.find?_cons, h2, ih]

lemma headerGet_set_same (h : List (String × String)) (k v : String) :
    headerGet (headerSet h k v) k = v := by
  simp [headerGet, headerSet, List.find?_cons]

lemma headerGet_set_other (h : List (String × String)) (k v k' : String) (hk : k' ≠ k) :
    headerGet (headerSet h k v) k' = headerGet h k' := by
  have h2 : (k == k') = false := by simp; exact fun hc => hk hc.symm
  simp only [headerGet, headerSet, List.find?_cons, h2, Bool.false_eq_true, if_false,
    find?_filter_ne h k k' hk]

/-- Branch normal form of the v2 parser on an input that carries the full
16-byte fixed header: what `parseProxyProtocolV2` computes once the position
arithmetic of the modelled reader has been evaluated. -/
def parseV2Body (vc fam hi lo : Nat) (rest : List Nat) : Except String ProxyProtocolInfo :=
  if vc / 16 ≠ 2 then .error ("invalid Proxy Protocol version: " ++ toString (vc / 16))
  else if vc % 16 ≠ 1 then .ok ⟨"", "", 0, 0, 2, "UNKNOWN"⟩
  else
    let addrLen := hi * 256 + lo
    if addrLen ≠ 0 ∧ rest.length = 0 then .error "EOF"
    else
      let avail := rest.take addrLen
      let addrData := avail ++ List.replicate (addrLen - avail.length) 0
      if fam / 16 = 1 then
        if addrLen < 12 then .error ("IPv4 address data too short: " ++ toString addrLen)
        else
          .ok ⟨bytesToString (ipv4DottedBytes (addrData.getD 0 0) (addrData.getD 1 0)
                  (addrData.getD 2 0) (addrData.getD 3 0)),
               bytesToString (ipv4DottedBytes (addrData.getD 4 0) (addrData.getD 5 0)
                  (addrData.getD 6 0) (addrData.getD 7 0)),
               ((addrData.getD 8 0 * 256 + addrData.getD 9 0 : Nat) : Int),
               ((addrData.getD 10 0 * 256 + addrData.getD 11 0 : Nat) : Int), 2, "TCP4"⟩
      else if fam / 16 = 2 then
        if addrLen < 36 then .error ("IPv6 address data too short: " ++ toString addrLen)
        else
          .ok ⟨bytesToString (ipv6StringBytes (addrData.take 16)),
               bytesToString (ipv6StringBytes ((addrData.drop 16).take 16)),
               ((addrData.getD 32 0 * 256 + addrData.getD 33 0 : Nat) : Int),
               ((addrData.getD 34 0 * 256 + addrData.getD 35 0 : Nat) : Int), 2, "TCP6"⟩
      else .error ("unsupported address family: " ++ toString (fam / 16))

lemma parseV2_structured (vc fam hi lo : Nat) (rest : List Nat) :
    parseProxyProtocolV2 (ProxyProtocolV2Prefix ++ vc :: fam :: hi :: lo :: rest) =
      parseV2Body vc fam hi lo rest := by
  have hL : (ProxyProtocolV2Prefix ++ vc :: fam :: hi :: lo :: rest).length =
      rest.length + 16 := rfl
  have hg12 : (ProxyProtocolV2Prefix ++ vc :: fam :: hi :: lo :: rest).getD 12 0 = vc := rfl
  have hg13 : (ProxyProtocolV2Prefix ++ vc :: fam :: hi :: lo :: rest).getD (12 + 1) 0 =
      fam := rfl
  have hg14 : (ProxyProtocolV2Prefix ++ vc :: fam :: hi :: lo :: rest).getD (12 + 1 + 1) 0 =
      hi := rfl
  have hg15 :
      (ProxyProtocolV2Prefix ++ vc :: fam :: hi :: lo :: rest).getD (12 + 1 + 1 + 1) 0 =
      lo := rfl
  have hdrop16 :
      (ProxyProtocolV2Prefix ++ vc :: fam :: hi :: lo :: rest).drop (12 + 1 + 1 + 2) =
      rest := rfl
  unfold parseProxyProtocolV2 parseV2Body
  simp only [hL]
  rw [if_neg (by omega : ¬(rest.length + 16 = 0))]
  rw [if_neg (by omega : ¬(rest.length + 16 < 12))]
  simp only [hg12]
  rw [if_neg (by omega : ¬(rest.length + 16 ≤ 12))]
  by_cases hv : vc / 16 = 2
  · have hv2 : ¬(vc / 16 ≠ 2) := by simpa using hv
    rw [if_neg hv2, if_neg hv2]
    by_cases hc : vc % 16 = 1
    · have hc2 : ¬(vc % 16 ≠ 1) := by simpa using hc
      rw [if_neg hc2, if_neg hc2]
      rw [if_neg (by omega : ¬(rest.length + 16 ≤ 12 + 1))]
      simp only [hg13]
      rw [if_neg (by omega : ¬(rest.length + 16 ≤ 12 + 1 + 1))]
      simp only [hg14, hg15]
      rw [if_neg (by omega : ¬(rest.length + 16 - (12 + 1 + 1) < 2))]
      simp only [hdrop16]
      by_cases hread : hi * 256 + lo ≠ 0 ∧ rest.length + 16 ≤ 12 + 1 + 1 + 2
      · rw [if_pos hread, if_pos ⟨hread.1, by omega⟩]
      · rw [if_neg hread, if_neg (show ¬(hi * 256 + lo ≠ 0 ∧ rest.length = 0) from
          fun hx => hread ⟨hx.1, by omega⟩)]
    · rw [if_pos hc, if_pos hc]
  · rw [if_pos hv, if_pos hv]

lemma processV2_structured (vc fam hi lo : Nat) (rest : List Nat) :
    processProxyProtocolData (ProxyProtocolV2Prefix ++ vc :: fam :: hi :: lo :: rest) =
      (match parseV2Body vc fam hi lo rest with
       | .error e => ⟨none, none, some ("proxy protocol v2 parse error: " ++ e)⟩
       | .ok info =>
         if rest.length < hi * 256 + lo then
           ⟨none, none, some "proxy protocol v2 header incomplete"⟩
         else ⟨some (rest.drop (hi * 256 + lo)), some info, none⟩) := by
  have hv1 : hasPrefixBytes (ProxyProtocolV2Prefix ++ vc :: fam :: hi :: lo :: rest)
      ProxyProtocolV1Prefix = false := rfl
  have hv2 : hasPrefixBytes (ProxyProtocolV2Prefix ++ vc :: fam :: hi :: lo :: rest)
      ProxyProtocolV2Prefix = true := rfl
  have hL : (ProxyProtocolV2Prefix ++ vc :: fam :: hi :: lo :: rest).length =
      rest.length + 16 := rfl
  have hg14 : (ProxyProtocolV2Prefix ++ vc :: fam :: hi :: lo :: rest).getD 14 0 = hi := rfl
  have hg15 : (ProxyProtocolV2Prefix ++ vc :: fam :: hi :: lo :: rest).getD 15 0 = lo := rfl
  have hdrop : ∀ L : Nat,
      (ProxyProtocolV2Prefix ++ vc :: fam :: hi :: lo :: rest).drop (16 + L) =
        rest.drop L := by
    intro L
    have h16 : (ProxyProtocolV2Prefix ++ vc :: fam :: hi :: lo :: rest).drop 16 = rest := rfl
    calc (ProxyProtocolV2Prefix ++ vc :: fam :: hi :: lo :: rest).drop (16 + L)
        = ((ProxyProtocolV2Prefix ++ vc :: fam :: hi :: lo :: rest).drop 16).drop L :=
          (List.drop_drop L 16 _).symm
      _ = rest.drop L := by rw [h16]
  unfold processProxyProtocolData
  simp only [hL, hv1, hv2, Bool.false_eq_true, if_false, if_true]
  rw [if_neg (by omega : ¬(rest.length + 16 = 0))]
  rw [parseV2_structured]
  cases hpb : parseV2Body vc fam hi lo rest with
  | error e => rfl
  | ok info =>
    simp only []
    rw [if_neg (by omega : ¬(rest.length + 16 < 16))]
    simp only [hg14, hg15]
    by_cases hlt : rest.length < hi * 256 + lo
    · rw [if_pos (by omega : rest.length + 16 < 16 + hi * 256 + lo), if_pos hlt]
    · rw [if_neg (show ¬(rest.length + 16 < 16 + hi * 256 + lo) from by omega),
        if_neg hlt]
      rw [show (16 + hi * 256 + lo : Nat) = 16 + (hi * 256 + lo) from by omega,
        hdrop (hi * 256 + lo)]

lemma mem_joinWithByte (c : Nat) (parts : List (List Nat)) (b : Nat)
    (hb : b ∈ joinWithByte c parts) : b = c ∨ ∃ f, f ∈ parts ∧ b ∈ f := by
  induction parts with
  | nil => simp [joinWithByte] at hb
  | cons f fs ih =>
    cases fs with
    | nil =>
      simp only [joinWithByte] at hb
      exact Or.inr ⟨f, List.mem_cons_self f [], hb⟩
    | cons g gs =>
      rw [show joinWithByte c (f :: g :: gs) = f ++ c :: joinWithByte c (g :: gs) from rfl]
        at hb
      rcases List.mem_append.mp hb with hbf | hbc
      · exact Or.inr ⟨f, List.mem_cons_self f _, hbf⟩
      · rcases List.mem_cons.mp hbc with hbc | hbj
        · exact Or.inl hbc
        · rcases ih hbj with h | ⟨f', hf', hb'⟩
          · exact Or.inl h
          · exact Or.inr ⟨f', List.mem_cons_of_mem f hf', hb'⟩

lemma parseV1_structured (f1 f2 f3 f4 f5 : List Nat) (fs : List (List Nat))
    (payload : List Nat)
    (hf : ∀ f ∈ strBytes "PROXY" :: f1 :: f2 :: f3 :: f4 :: f5 :: fs,
      f ≠ [] ∧ ∀ b ∈ f, isSpaceByte b = false) :
    parseProxyProtocolV1
        (joinWithByte 32 (strBytes "PROXY" :: f1 :: f2 :: f3 :: f4 :: f5 :: fs) ++
          13 :: 10 :: payload) =
      .ok ⟨bytesToString f2, bytesToString f3, sscanfInt f4, sscanfInt f5, 1,
           bytesToString f1⟩ := by
  set parts := strBytes "PROXY" :: f1 :: f2 :: f3 :: f4 :: f5 :: fs with hparts
  set hdr := joinWithByte 32 parts with hhdr
  have hnolf : ∀ b ∈ hdr, b ≠ 10 ∧ b ≠ 13 := by
    intro b hb
    rcases mem_joinWithByte 32 parts b hb with rfl | ⟨f, hfp, hbf⟩
    · exact ⟨by norm_num, by norm_num⟩
    · have hs := (hf f hfp).2 b hbf
      simp only [isSpaceByte, Bool.or_eq_false_iff, beq_eq_false_iff_ne, ne_eq] at hs
      exact ⟨by omega, by omega⟩
  have hidx : indexOfByte 10 (hdr ++ 13 :: 10 :: payload) = some (hdr.length + 1) := by
    have := indexOfByte_sep 10 (hdr ++ [13]) payload (by
      intro b hb
      rcases List.mem_append.mp hb with hbh | hb13
      · simpa using (hnolf b hbh).1
      · simp at hb13
        simp [hb13])
    simpa using this
  have htake : (hdr ++ 13 :: 10 :: payload).take (hdr.length + 1 + 1) = hdr ++ [13, 10] := by
    rw [show hdr ++ 13 :: 10 :: payload = (hdr ++ [13, 10]) ++ payload from by simp]
    exact List.take_left' (by simp)
  have htrim : trimSpaceBytes (hdr ++ [13, 10]) = hdr := by
    apply trimSpaceBytes_crlf
    · exact ⟨80, 82 :: 79 :: 88 :: 89 :: 32 :: joinWithByte 32 (f1 :: f2 :: f3 :: f4 :: f5 :: fs),
        rfl, by decide⟩
    · obtain ⟨front, t, hj, f, hfp, htf⟩ := joinWithByte_last 32 parts (by simp [hparts])
        (fun f hfp => (hf f hfp).1)
      exact ⟨front, t, hj, (hf f hfp).2 t htf⟩
  have hsplit : splitOnP (fun b => b == 32) hdr = parts := by
    apply splitOnP_join _ _ _ (by decide) _ (by simp [hparts])
    intro f hfp b hbf
    have hs := (hf f hfp).2 b hbf
    simp only [isSpaceByte, Bool.or_eq_false_iff, beq_eq_false_iff_ne, ne_eq] at hs
    simp only [beq_eq_false_iff_ne, ne_eq]
    omega
  unfold parseProxyProtocolV1
  rw [hidx]
  simp only [htake, htrim, hsplit, hparts]
  rw [if_neg (by simp [bytesToString_strBytes])]

lemma processV1_structured (f1 f2 f3 f4 f5 : List Nat) (fs : List (List Nat))
    (payload : List Nat)
    (hf : ∀ f ∈ strBytes "PROXY" :: f1 :: f2 :: f3 :: f4 :: f5 :: fs,
      f ≠ [] ∧ ∀ b ∈ f, isSpaceByte b = false) :
    processProxyProtocolData
        (joinWithByte 32 (strBytes "PROXY" :: f1 :: f2 :: f3 :: f4 :: f5 :: fs) ++
          13 :: 10 :: payload) =
      ⟨some payload,
       some ⟨bytesToString f2, bytesToString f3, sscanfInt f4, sscanfInt f5, 1,
             bytesToString f1⟩, none⟩ := by
  set parts := strBytes "PROXY" :: f1 :: f2 :: f3 :: f4 :: f5 :: fs with hparts
  set hdr := joinWithByte 32 parts with hhdr
  have hnocr : ∀ b ∈ hdr, b ≠ 13 := by
    intro b hb
    rcases mem_joinWithByte 32 parts b hb with rfl | ⟨f, hfp, hbf⟩
    · norm_num
    · have hs := (hf f hfp).2 b hbf
      simp only [isSpaceByte, Bool.or_eq_false_iff, beq_eq_false_iff_ne, ne_eq] at hs
      omega
  have hL : (hdr ++ 13 :: 10 :: payload).length = hdr.length + (payload.length + 2) := by
    simp
  have hpre : hasPrefixBytes (hdr ++ 13 :: 10 :: payload) ProxyProtocolV1Prefix = true := by
    have : hdr = 80 :: 82 :: 79 :: 88 :: 89 :: 32 :: joinWithByte 32 (f1 :: f2 :: f3 :: f4 :: f5 :: fs) := rfl
    rw [this]
    rfl
  have hcrlf : indexOfCRLF (hdr ++ 13 :: 10 :: payload) = some hdr.length :=
    indexOfCRLF_sep hdr payload hnocr
  have hdrop : (hdr ++ 13 :: 10 :: payload).drop (hdr.length + 2) = payload := by
    rw [show hdr ++ 13 :: 10 :: payload = (hdr ++ [13, 10]) ++ payload from by simp]
    exact List.drop_left' (by simp)
  unfold processProxyProtocolData
  rw [if_neg (by rw [hL]; omega)]
  simp only [hpre, if_true]
  rw [parseV1_structured f1 f2 f3 f4 f5 fs payload hf]
  simp only [hcrlf, hdrop]

/-! ## Claim theorems -/

lemma process_err_none_or (data : List Nat) :
    (processProxyProtocolData data).err = none ∨
      ((processProxyProtocolData data).remaining = none ∧
       (processProxyProtocolData data).info = none) := by
  unfold processProxyProtocolData
  by_cases h0 : data.length = 0
  · simp [h0]
  · rw [if_neg h0]
    by_cases h1 : hasPrefixBytes data ProxyProtocolV1Prefix = true
    · rw [if_pos h1]
      cases hres : parseProxyProtocolV1 data with
      | error e => simp
      | ok i =>
        cases hidx : indexOfCRLF data with
        | none => simp
        | some k => simp
    · rw [if_neg h1]
      by_cases h2 : hasPrefixBytes data ProxyProtocolV2Prefix = true
      · rw [if_pos h2]
        cases hres : parseProxyProtocolV2 data with
        | error e => simp
        | ok i =>
          simp only []
          by_cases h3 : data.length < 16
          · simp [h3]
          · rw [if_neg h3]
            split_ifs with h4 <;> simp
      · rw [if_neg h2]
        simp

/-- C10: whenever `processProxyProtocolData` returns a non-nil error, the
returned remaining-data slice is nil and the returned endpoint info is nil,
so a fail-open caller cannot recover the connection's bytes from the result
of the failed call. -/
theorem c10_error_returns_nothing (data : List Nat)
    (h : (processProxyProtocolData data).err.isSome = true) :
    (processProxyProtocolData data).remaining = none ∧
      (processProxyProtocolData data).info = none := by
  rcases process_err_none_or data with hn | hok
  · rw [hn] at h
    exact absurd h (by simp)
  · exact hok

theorem c10_error_returns_nothing_witness :
    (processProxyProtocolData (strBytes "PROXY TCP4 1.2.3.4")).err.isSome = true ∧
    ((processProxyProtocolData (strBytes "PROXY TCP4 1.2.3.4")).remaining = none ∧
     (processProxyProtocolData (strBytes "PROXY TCP4 1.2.3.4")).info = none) :=
  ⟨by decide, c10_error_returns_nothing _ (by decide)⟩

/-- C7: a v2 header with command LOCAL (version/command byte 0x20, low nibble
0) parses successfully through `processProxyProtocolData`: the result carries
transport UNKNOWN with no address or port populated, and exactly
16 + declared-length bytes are consumed (exactly 16 when the length is 0). -/
theorem c7_local_command (fam hi lo : Nat) (rest : List Nat)
    (hhi : hi < 256) (hlo : lo < 256) (hlen : hi * 256 + lo ≤ rest.length) :
    processProxyProtocolData (ProxyProtocolV2Prefix ++ 32 :: fam :: hi :: lo :: rest) =
      ⟨some (rest.drop (hi * 256 + lo)), some ⟨"", "", 0, 0, 2, "UNKNOWN"⟩, none⟩ := by
  rw [processV2_structured]
  have hbody : parseV2Body 32 fam hi lo rest = .ok ⟨"", "", 0, 0, 2, "UNKNOWN"⟩ := by
    unfold parseV2Body
    rw [if_neg (show ¬((32:Nat) / 16 ≠ 2) from by norm_num)]
    rw [if_pos (show (32:Nat) % 16 ≠ 1 from by norm_num)]
  rw [hbody]
  show (if rest.length < hi * 256 + lo then
      (⟨none, none, some "proxy protocol v2 header incomplete"⟩ : ProcessResult)
    else ⟨some (rest.drop (hi * 256 + lo)),
      some ⟨"", "", 0, 0, 2, "UNKNOWN"⟩, none⟩) = _
  rw [if_neg (show ¬(rest.length < hi * 256 + lo) from by omega)]

theorem c7_local_command_witness :
    processProxyProtocolData (ProxyProtocolV2Prefix ++ 32 :: 0 :: 0 :: 0 :: []) =
      ⟨some (([] : List Nat).drop (0 * 256 + 0)), some ⟨"", "", 0, 0, 2, "UNKNOWN"⟩, none⟩ :=
  c7_local_command 0 0 0 [] (by decide) (by decide) (by decide)

/-- C3: on a v2 input whose declared big-endian length exceeds the
address-block bytes actually present, or whose declared length is below the
selected family's minimum (12 for IPv4, 36 for IPv6), processing fails with
an error and no endpoint info and no remaining data are returned — the
missing bytes are never guessed or zero-filled into a result. -/
theorem c3_v2_truncation (vc fam hi lo : Nat) (rest : List Nat)
    (hv : vc / 16 = 2)
    (h : rest.length < hi * 256 + lo ∨
      (vc % 16 = 1 ∧ (fam / 16 = 1 ∧ hi * 256 + lo < 12 ∨
                      fam / 16 = 2 ∧ hi * 256 + lo < 36))) :
    (processProxyProtocolData
        (ProxyProtocolV2Prefix ++ vc :: fam :: hi :: lo :: rest)).remaining = none ∧
    (processProxyProtocolData
        (ProxyProtocolV2Prefix ++ vc :: fam :: hi :: lo :: rest)).info = none ∧
    (processProxyProtocolData
        (ProxyProtocolV2Prefix ++ vc :: fam :: hi :: lo :: rest)).err.isSome = true := by
  rw [processV2_structured]
  cases hpb : parseV2Body vc fam hi lo rest with
  | error e => simp
  | ok info =>
    rcases h with hlt | ⟨hc, hfam⟩
    · simp only []
      rw [if_pos hlt]
      simp
    · exfalso
      unfold parseV2Body at hpb
      rw [if_neg (show ¬(vc / 16 ≠ 2) from by simpa using hv)] at hpb
      rw [if_neg (show ¬(vc % 16 ≠ 1) from by simpa using hc)] at hpb
      by_cases hread : hi * 256 + lo ≠ 0 ∧ rest.length = 0
      · rw [if_pos hread] at hpb
        exact Except.noConfusion hpb
      · rw [if_neg hread] at hpb
        rcases hfam with ⟨hf1, h12⟩ | ⟨hf2, h36⟩
        · rw [if_pos hf1, if_pos h12] at hpb
          exact Except.noConfusion hpb
        · rw [if_neg (show ¬(fam / 16 = 1) from by omega), if_pos hf2, if_pos h36] at hpb
          exact Except.noConfusion hpb

theorem c3_v2_truncation_witness :
    ((33 : Nat) / 16 = 2 ∧ [192, 0, 2, 100, 198, 51].length < 0 * 256 + 12) ∧
    ((processProxyProtocolData (ProxyProtocolV2Prefix ++
        33 :: 17 :: 0 :: 12 :: [192, 0, 2, 100, 198, 51])).remaining = none ∧
     (processProxyProtocolData (ProxyProtocolV2Prefix ++
        33 :: 17 :: 0 :: 12 :: [192, 0, 2, 100, 198, 51])).info = none ∧
     (processProxyProtocolData (ProxyProtocolV2Prefix ++
        33 :: 17 :: 0 :: 12 :: [192, 0, 2, 100, 198, 51])).err.isSome = true) :=
  ⟨by decide, c3_v2_truncation 33 17 0 12 [192, 0, 2, 100, 198, 51] (by decide)
    (Or.inl (by decide))⟩

/-- C8 (the claim is violated by the code — this theorem evaluates the model
of `ProxyProtocolListener.Accept` at the failing input): for the plain HTTP
connection "GET / HTTP/1.1 CR LF CR LF", no PROXY header is detected, yet the
consumer can read nothing from the returned connection — the bytes the peek
pulled into the discarded `bufio.Reader` are gone, so the stream handed over
is not the original byte stream. -/
theorem c8_buffered_bytes_lost :
    (ProxyProtocolListenerAccept (strBytes "GET / HTTP/1.1\r\n\r\n")).proxyInfo = none ∧
    (ProxyProtocolListenerAccept (strBytes "GET / HTTP/1.1\r\n\r\n")).readable = [] ∧
    strBytes "GET / HTTP/1.1\r\n\r\n" ≠ [] := by decide

/-- C5: an input that begins with the literal token "PROXY " but contains no
CR-LF terminator anywhere in the examined window is never reported as
detected: `detectProxyProtocol` returns false. -/
theorem c5_truncated_v1_not_detected (rest : List Nat)
    (hnoterm : indexOfCRLF (ProxyProtocolV1Prefix ++ rest) = none) :
    detectProxyProtocol (ProxyProtocolV1Prefix ++ rest) = false := by
  have hL : (ProxyProtocolV1Prefix ++ rest).length = rest.length + 6 := rfl
  have hpre : hasPrefixBytes (ProxyProtocolV1Prefix ++ rest) ProxyProtocolV1Prefix =
      true := rfl
  have hv2f : ((ProxyProtocolV1Prefix ++ rest).take ProxyProtocolV2Prefix.length ==
      ProxyProtocolV2Prefix) = false := rfl
  have hcheck : detectProxyProtocolV2Check (ProxyProtocolV1Prefix ++ rest) = false := by
    unfold detectProxyProtocolV2Check
    rw [if_neg]
    simp [hv2f]
  unfold detectProxyProtocol
  rw [if_neg (show ¬((ProxyProtocolV1Prefix ++ rest).length = 0) from by rw [hL]; omega)]
  rw [if_pos (show (decide (ProxyProtocolV1Prefix.length ≤
        (ProxyProtocolV1Prefix ++ rest).length) &&
      hasPrefixBytes (ProxyProtocolV1Prefix ++ rest) ProxyProtocolV1Prefix) = true from by
    rw [hpre, hL, show ProxyProtocolV1Prefix.length = 6 from rfl]
    simp)]
  rw [hnoterm]
  exact hcheck

theorem c5_truncated_v1_not_detected_witness :
    indexOfCRLF (ProxyProtocolV1Prefix ++ strBytes "TCP4 192.0.2.1") = none ∧
    detectProxyProtocol (ProxyProtocolV1Prefix ++ strBytes "TCP4 192.0.2.1") = false :=
  ⟨by decide, c5_truncated_v1_not_detected (strBytes "TCP4 192.0.2.1") (by decide)⟩

/-- C6: for an input beginning with the fixed 12-byte v2 signature,
`detectProxyProtocol` returns true exactly when at least 16 bytes are
available, byte 12's high nibble equals 2, and its low nibble is 0 or 1;
every other version/command combination (or fewer than 16 bytes) yields
false. -/
theorem c6_v2_detection_iff (rest : List Nat) :
    detectProxyProtocol (ProxyProtocolV2Prefix ++ rest) = true ↔
      (16 ≤ (ProxyProtocolV2Prefix ++ rest).length ∧
        (ProxyProtocolV2Prefix ++ rest).getD 12 0 / 16 = 2 ∧
        ((ProxyProtocolV2Prefix ++ rest).getD 12 0 % 16 = 0 ∨
         (ProxyProtocolV2Prefix ++ rest).getD 12 0 % 16 = 1)) := by
  have hL : (ProxyProtocolV2Prefix ++ rest).length = rest.length + 12 := rfl
  have hg : (ProxyProtocolV2Prefix ++ rest).getD 12 0 = rest.getD 0 0 := rfl
  have hv1f : hasPrefixBytes (ProxyProtocolV2Prefix ++ rest) ProxyProtocolV1Prefix =
      false := rfl
  have hsig : ((ProxyProtocolV2Prefix ++ rest).take ProxyProtocolV2Prefix.length ==
      ProxyProtocolV2Prefix) = true := rfl
  unfold detectProxyProtocol detectProxyProtocolV2Check
  rw [if_neg (show ¬((ProxyProtocolV2Prefix ++ rest).length = 0) from by rw [hL]; omega)]
  rw [if_neg (show ¬((decide (ProxyProtocolV1Prefix.length ≤
        (ProxyProtocolV2Prefix ++ rest).length) &&
      hasPrefixBytes (ProxyProtocolV2Prefix ++ rest) ProxyProtocolV1Prefix) = true) from by
    rw [hv1f]
    simp)]
  rw [if_pos (show (decide (ProxyProtocolV2Prefix.length ≤
        (ProxyProtocolV2Prefix ++ rest).length) &&
      ((ProxyProtocolV2Prefix ++ rest).take ProxyProtocolV2Prefix.length ==
        ProxyProtocolV2Prefix)) = true from by
    rw [hsig, hL]
    simp [ProxyProtocolV2Prefix])]
  by_cases h16 : 16 ≤ (ProxyProtocolV2Prefix ++ rest).length
  · rw [if_pos (by simpa using h16)]
    simp only [hg, h16, true_and, Bool.and_eq_true, Bool.or_eq_true, beq_iff_eq]
  · rw [if_neg h16]
    simp only [hL] at h16
    simp [hL, h16]

/-- C1: concatenating a well-formed PROXY header with an arbitrary payload,
`processProxyProtocolData` succeeds and the returned remaining data is
byte-for-byte the original payload.  First conjunct: v1 lines, given as the
space-join of at least six non-empty whitespace-free fields starting with
"PROXY", terminated by CR LF.  Second conjunct: v2 binary headers, given as
the signature, a version-2 version/command byte, a family/protocol byte, the
big-endian length, and an address block of exactly the declared length, with
either a non-PROXY command or a supported family and a length at or above
the family minimum. -/
theorem c1_payload_preservation :
    (∀ (f1 f2 f3 f4 f5 : List Nat) (fs : List (List Nat)) (payload : List Nat),
      (∀ f ∈ strBytes "PROXY" :: f1 :: f2 :: f3 :: f4 :: f5 :: fs,
        f ≠ [] ∧ ∀ b ∈ f, isSpaceByte b = false) →
      ∃ info, processProxyProtocolData
          (joinWithByte 32 (strBytes "PROXY" :: f1 :: f2 :: f3 :: f4 :: f5 :: fs) ++
            13 :: 10 :: payload) = ⟨some payload, some info, none⟩) ∧
    (∀ (vc fam hi lo : Nat) (block payload : List Nat),
      vc / 16 = 2 →
      block.length = hi * 256 + lo →
      (vc % 16 ≠ 1 ∨ fam / 16 = 1 ∧ 12 ≤ hi * 256 + lo ∨
        fam / 16 = 2 ∧ 36 ≤ hi * 256 + lo) →
      ∃ info, processProxyProtocolData
          (ProxyProtocolV2Prefix ++ vc :: fam :: hi :: lo :: (block ++ payload)) =
        ⟨some payload, some info, none⟩) := by
  constructor
  · intro f1 f2 f3 f4 f5 fs payload hf
    exact ⟨_, processV1_structured f1 f2 f3 f4 f5 fs payload hf⟩
  · intro vc fam hi lo block payload hv hlen hwf
    rw [processV2_structured]
    have hrest : (block ++ payload).length = hi * 256 + lo + payload.length := by
      simp [hlen]
    have hdropL : (block ++ payload).drop (hi * 256 + lo) = payload := by
      rw [← hlen]
      exact List.drop_left block payload
    by_cases hc : vc % 16 = 1
    · rcases hwf with hcmd | ⟨hfam, hmin⟩ | ⟨hfam, hmin⟩
      · exact absurd hc hcmd
      · have hbody : ∃ info, parseV2Body vc fam hi lo (block ++ payload) = .ok info := by
          unfold parseV2Body
          rw [if_neg (show ¬(vc / 16 ≠ 2) from by simpa using hv)]
          rw [if_neg (show ¬(vc % 16 ≠ 1) from by simpa using hc)]
          rw [if_neg (show ¬(hi * 256 + lo ≠ 0 ∧ (block ++ payload).length = 0) from by
            rw [hrest]; omega)]
          rw [if_pos hfam, if_neg (show ¬(hi * 256 + lo < 12) from by omega)]
          exact ⟨_, rfl⟩
        obtain ⟨info, hinfo⟩ := hbody
        rw [hinfo]
        refine ⟨info, ?_⟩
        show (if (block ++ payload).length < hi * 256 + lo then
            (⟨none, none, some "proxy protocol v2 header incomplete"⟩ : ProcessResult)
          else ⟨some ((block ++ payload).drop (hi * 256 + lo)), some info, none⟩) = _
        rw [if_neg (show ¬((block ++ payload).length < hi * 256 + lo) from by
          rw [hrest]; omega), hdropL]
      · have hbody : ∃ info, parseV2Body vc fam hi lo (block ++ payload) = .ok info := by
          unfold parseV2Body
          rw [if_neg (show ¬(vc / 16 ≠ 2) from by simpa using hv)]
          rw [if_neg (show ¬(vc % 16 ≠ 1) from by simpa using hc)]
          rw [if_neg (show ¬(hi * 256 + lo ≠ 0 ∧ (block ++ payload).length = 0) from by
            rw [hrest]; omega)]
          rw [if_neg (show ¬(fam / 16 = 1) from by omega)]
          rw [if_pos hfam, if_neg (show ¬(hi * 256 + lo < 36) from by omega)]
          exact ⟨_, rfl⟩
        obtain ⟨info, hinfo⟩ := hbody
        rw [hinfo]
        refine ⟨info, ?_⟩
        show (if (block ++ payload).length < hi * 256 + lo then
            (⟨none, none, some "proxy protocol v2 header incomplete"⟩ : ProcessResult)
          else ⟨some ((block ++ payload).drop (hi * 256 + lo)), some info, none⟩) = _
        rw [if_neg (show ¬((block ++ payload).length < hi * 256 + lo) from by
          rw [hrest]; omega), hdropL]
    · have hbody : parseV2Body vc fam hi lo (block ++ payload) =
          .ok ⟨"", "", 0, 0, 2, "UNKNOWN"⟩ := by
        unfold parseV2Body
        rw [if_neg (show ¬(vc / 16 ≠ 2) from by simpa using hv)]
        rw [if_pos hc]
      rw [hbody]
      refine ⟨⟨"", "", 0, 0, 2, "UNKNOWN"⟩, ?_⟩
      show (if (block ++ payload).length < hi * 256 + lo then
          (⟨none, none, some "proxy protocol v2 header incomplete"⟩ : ProcessResult)
        else ⟨some ((block ++ payload).drop (hi * 256 + lo)), some ⟨"", "", 0, 0, 2, "UNKNOWN"⟩,
          none⟩) = _
      rw [if_neg (show ¬((block ++ payload).length < hi * 256 + lo) from by
        rw [hrest]; omega), hdropL]

theorem c1_payload_preservation_witness :
    ((∀ f ∈ strBytes "PROXY" :: strBytes "TCP4" :: strBytes "192.0.2.100" ::
        strBytes "198.51.100.50" :: strBytes "45678" :: strBytes "443" :: ([] : List (List Nat)),
      f ≠ [] ∧ ∀ b ∈ f, isSpaceByte b = false)) ∧
    (∃ info, processProxyProtocolData
        (joinWithByte 32 (strBytes "PROXY" :: strBytes "TCP4" :: strBytes "192.0.2.100" ::
          strBytes "198.51.100.50" :: strBytes "45678" :: strBytes "443" :: []) ++
          13 :: 10 :: strBytes "GET / HTTP/1.1\r\n\r\n") =
      ⟨some (strBytes "GET / HTTP/1.1\r\n\r\n"), some info, none⟩) :=
  ⟨by decide, c1_payload_preservation.1 (strBytes "TCP4") (strBytes "192.0.2.100")
    (strBytes "198.51.100.50") (strBytes "45678") (strBytes "443") []
    (strBytes "GET / HTTP/1.1\r\n\r\n") (by decide)⟩

lemma takeWhile_eq_nil_of_all (p : Nat → Bool) (l : List Nat)
    (h : ∀ b ∈ l, p b = false) : l.takeWhile p = [] := by
  cases l with
  | nil => rfl
  | cons x xs => simp [List.takeWhile_cons, h x (List.mem_cons_self x xs)]

lemma sscanfInt_no_digits (l : List Nat) (h : ∀ b ∈ l, isDigitByte b = false) :
    sscanfInt l = 0 := by
  rcases hd : l.dropWhile isSpaceByte with _ | ⟨c, r⟩
  · unfold sscanfInt
    rw [hd]
  · have hsub : ∀ b ∈ c :: r, b ∈ l := by
      intro b hb
      exact (List.dropWhile_sublist (p := isSpaceByte) (l := l)).subset (hd ▸ hb)
    have hr : ∀ b ∈ r, isDigitByte b = false :=
      fun b hb => h b (hsub b (List.mem_cons_of_mem c hb))
    have htr : r.takeWhile isDigitByte = [] := takeWhile_eq_nil_of_all _ _ hr
    have htcr : (c :: r).takeWhile isDigitByte = [] :=
      takeWhile_eq_nil_of_all _ _ (fun b hb => h b (hsub b hb))
    unfold sscanfInt
    rw [hd]
    by_cases h45 : (c == 45) = true
    · simp [h45, htr]
    · by_cases h43 : (c == 43) = true
      · simp [h45, h43, htr]
      · simp [h45, h43, htcr]

/-- C4 (counterexample): the v1 line "PROXY TCP4 192.0.2.1 198.51.100.1
notaport 443 CR LF" has six space-separated fields with first field "PROXY"
and a non-integer source-port field, yet `parseProxyProtocolV1` does not
return an error: it returns endpoint info with the source port silently
defaulted to 0 — refuting the claim that such a line is a hard parse error
and that no defaulted-port result is ever returned. -/
theorem c4_counterexample :
    parseProxyProtocolV1 (strBytes "PROXY TCP4 192.0.2.1 198.51.100.1 notaport 443\r\n") =
      .ok ⟨"192.0.2.1", "198.51.100.1", 0, 443, 1, "TCP4"⟩ := by decide

/-- C4 amended: for every v1 header line with at least 6 space-separated
fields whose first field is "PROXY" (and a CR-LF terminator), if the
source-port field (respectively the dest-port field) contains no decimal
digit, `parseProxyProtocolV1` still succeeds and returns the endpoint info
with that port left at the default 0 — the `Sscanf` error is ignored, so no
error and no port validation occurs on the port fields. -/
theorem c4_ports_defaulted :
    (∀ (f1 f2 f3 f4 f5 : List Nat) (fs : List (List Nat)) (payload : List Nat),
      (∀ f ∈ strBytes "PROXY" :: f1 :: f2 :: f3 :: f4 :: f5 :: fs,
        f ≠ [] ∧ ∀ b ∈ f, isSpaceByte b = false) →
      (∀ b ∈ f4, isDigitByte b = false) →
      parseProxyProtocolV1
          (joinWithByte 32 (strBytes "PROXY" :: f1 :: f2 :: f3 :: f4 :: f5 :: fs) ++
            13 :: 10 :: payload) =
        .ok ⟨bytesToString f2, bytesToString f3, 0, sscanfInt f5, 1, bytesToString f1⟩) ∧
    (∀ (f1 f2 f3 f4 f5 : List Nat) (fs : List (List Nat)) (payload : List Nat),
      (∀ f ∈ strBytes "PROXY" :: f1 :: f2 :: f3 :: f4 :: f5 :: fs,
        f ≠ [] ∧ ∀ b ∈ f, isSpaceByte b = false) →
      (∀ b ∈ f5, isDigitByte b = false) →
      parseProxyProtocolV1
          (joinWithByte 32 (strBytes "PROXY" :: f1 :: f2 :: f3 :: f4 :: f5 :: fs) ++
            13 :: 10 :: payload) =
        .ok ⟨bytesToString f2, bytesToString f3, sscanfInt f4, 0, 1, bytesToString f1⟩) := by
  constructor
  · intro f1 f2 f3 f4 f5 fs payload hf hnd
    rw [parseV1_structured f1 f2 f3 f4 f5 fs payload hf, sscanfInt_no_digits f4 hnd]
  · intro f1 f2 f3 f4 f5 fs payload hf hnd
    rw [parseV1_structured f1 f2 f3 f4 f5 fs payload hf, sscanfInt_no_digits f5 hnd]

theorem c4_ports_defaulted_witness :
    ((∀ f ∈ strBytes "PROXY" :: strBytes "TCP4" :: strBytes "192.0.2.1" ::
        strBytes "198.51.100.1" :: strBytes "notaport" :: strBytes "443" ::
        ([] : List (List Nat)), f ≠ [] ∧ ∀ b ∈ f, isSpaceByte b = false) ∧
      (∀ b ∈ strBytes "notaport", isDigitByte b = false)) ∧
    parseProxyProtocolV1
        (joinWithByte 32 (strBytes "PROXY" :: strBytes "TCP4" :: strBytes "192.0.2.1" ::
          strBytes "198.51.100.1" :: strBytes "notaport" :: strBytes "443" :: []) ++
          13 :: 10 :: []) =
      .ok ⟨bytesToString (strBytes "192.0.2.1"), bytesToString (strBytes "198.51.100.1"), 0,
           sscanfInt (strBytes "443"), 1, bytesToString (strBytes "TCP4")⟩ :=
  ⟨⟨by decide, by decide⟩, c4_ports_defaulted.1 (strBytes "TCP4") (strBytes "192.0.2.1")
    (strBytes "198.51.100.1") (strBytes "notaport") (strBytes "443") [] [] (by decide)
    (by decide)⟩

/-- C9 (counterexample): for a request that already carries
X-Real-IP = "203.0.113.9", the middleware overwrites it with the parsed
source address, and it never sets X-Forwarded-Port at all — refuting the
claim that each of forwarded-for, real-ip and forwarded-port is written only
when absent and that existing values are left unchanged. -/
theorem c9_counterexample :
    headerGet (ProxyProtocolMiddleware
        ⟨"192.0.2.100", "198.51.100.50", 45678, 443, 1, "TCP4"⟩
        ⟨"10.0.0.1:5555", [("X-Real-IP", "203.0.113.9")], false⟩).headers "X-Real-IP" =
      "192.0.2.100" ∧
    headerGet (ProxyProtocolMiddleware
        ⟨"192.0.2.100", "198.51.100.50", 45678, 443, 1, "TCP4"⟩
        ⟨"10.0.0.1:5555", [("X-Real-IP", "203.0.113.9")], false⟩).headers
      "X-Forwarded-Port" = "" := by decide

/-- C9 amended: the middleware applies first-writer-wins only to
X-Forwarded-For (and to X-Forwarded-Proto); X-Real-IP is always overwritten
with the parsed source address, and X-Forwarded-Port is not touched by the
middleware at all (the ingress handler emits it on fresh response headers
instead). -/
theorem c9_middleware_fields (info : ProxyProtocolInfo) (r : Request) :
    (headerGet r.headers "X-Forwarded-For" ≠ "" →
      headerGet (ProxyProtocolMiddleware info r).headers "X-Forwarded-For" =
        headerGet r.headers "X-Forwarded-For") ∧
    (headerGet r.headers "X-Forwarded-For" = "" →
      headerGet (ProxyProtocolMiddleware info r).headers "X-Forwarded-For" =
        info.SourceAddr) ∧
    headerGet (ProxyProtocolMiddleware info r).headers "X-Real-IP" = info.SourceAddr ∧
    headerGet (ProxyProtocolMiddleware info r).headers "X-Forwarded-Port" =
      headerGet r.headers "X-Forwarded-Port" := by
  unfold ProxyProtocolMiddleware
  set h1 := if headerGet r.headers "X-Forwarded-For" = "" then
      headerSet r.headers "X-Forwarded-For" info.SourceAddr
    else r.headers with hh1
  set h2 := headerSet h1 "X-Real-IP" info.SourceAddr with hh2
  set h3 := if headerGet h2 "X-Forwarded-Proto" = "" then
      headerSet h2 "X-Forwarded-Proto" (if r.tls then "https" else "http")
    else h2 with hh3
  have gff3 : headerGet h3 "X-Forwarded-For" = headerGet h1 "X-Forwarded-For" := by
    rw [hh3]
    by_cases hp : headerGet h2 "X-Forwarded-Proto" = ""
    · rw [if_pos hp, headerGet_set_other _ _ _ _ (by decide), hh2,
        headerGet_set_other _ _ _ _ (by decide)]
    · rw [if_neg hp, hh2, headerGet_set_other _ _ _ _ (by decide)]
  have gport3 : headerGet h3 "X-Forwarded-Port" = headerGet r.headers "X-Forwarded-Port" := by
    have gport1 : headerGet h1 "X-Forwarded-Port" = headerGet r.headers "X-Forwarded-Port" := by
      rw [hh1]
      by_cases hff : headerGet r.headers "X-Forwarded-For" = ""
      · rw [if_pos hff, headerGet_set_other _ _ _ _ (by decide)]
      · rw [if_neg hff]
    rw [hh3]
    by_cases hp : headerGet h2 "X-Forwarded-Proto" = ""
    · rw [if_pos hp, headerGet_set_other _ _ _ _ (by decide), hh2,
        headerGet_set_other _ _ _ _ (by decide), gport1]
    · rw [if_neg hp, hh2, headerGet_set_other _ _ _ _ (by decide), gport1]
  have grip3 : headerGet h3 "X-Real-IP" = info.SourceAddr := by
    rw [hh3]
    by_cases hp : headerGet h2 "X-Forwarded-Proto" = ""
    · rw [if_pos hp, headerGet_set_other _ _ _ _ (by decide), hh2, headerGet_set_same]
    · rw [if_neg hp, hh2, headerGet_set_same]
  refine ⟨?_, ?_, grip3, gport3⟩
  · intro hne
    rw [gff3, hh1, if_neg hne]
  · intro heq
    rw [gff3, hh1, if_pos heq, headerGet_set_same]

theorem c9_middleware_fields_witness :
    headerGet [("X-Forwarded-For", "203.0.113.7")] "X-Forwarded-For" ≠ "" ∧
    headerGet (ProxyProtocolMiddleware
        ⟨"192.0.2.100", "198.51.100.50", 45678, 443, 1, "TCP4"⟩
        ⟨"10.0.0.1:5555", [("X-Forwarded-For", "203.0.113.7")], false⟩).headers
      "X-Forwarded-For" =
      headerGet [("X-Forwarded-For", "203.0.113.7")] "X-Forwarded-For" :=
  ⟨by decide, (c9_middleware_fields
    ⟨"192.0.2.100", "198.51.100.50", 45678, 443, 1, "TCP4"⟩
    ⟨"10.0.0.1:5555", [("X-Forwarded-For", "203.0.113.7")], false⟩).1 (by decide)⟩

lemma roundTripV1_aux (info : ProxyProtocolInfo)
    (ht : info.TransportProto = "TCP4" ∨ info.TransportProto = "TCP6")
    (hs : IsAddressToken info.SourceAddr) (hd : IsAddressToken info.DestAddr)
    (hsp : 0 ≤ info.SourcePort ∧ info.SourcePort < 65536)
    (hdp : 0 ≤ info.DestPort ∧ info.DestPort < 65536) :
    ∃ info', parseProxyProtocolV1 (encodeProxyProtocolV1 info) = .ok info' ∧
      info'.SourceAddr = info.SourceAddr ∧ info'.DestAddr = info.DestAddr ∧
      info'.SourcePort = info.SourcePort ∧ info'.DestPort = info.DestPort ∧
      info'.TransportProto = info.TransportProto := by
  have henc : encodeProxyProtocolV1 info =
      joinWithByte 32 (strBytes "PROXY" :: strBytes info.TransportProto ::
        strBytes info.SourceAddr :: strBytes info.DestAddr ::
        natDecimal info.SourcePort.toNat :: natDecimal info.DestPort.toNat :: []) ++
        13 :: 10 :: [] := by
    simp [encodeProxyProtocolV1, joinWithByte]
  have hfields : ∀ f ∈ strBytes "PROXY" :: strBytes info.TransportProto ::
      strBytes info.SourceAddr :: strBytes info.DestAddr ::
      natDecimal info.SourcePort.toNat :: natDecimal info.DestPort.toNat ::
      ([] : List (List Nat)), f ≠ [] ∧ ∀ b ∈ f, isSpaceByte b = false := by
    intro f hfm
    simp only [List.mem_cons, List.not_mem_nil, or_false] at hfm
    rcases hfm with rfl | rfl | rfl | rfl | rfl | rfl
    · exact ⟨by decide, by decide⟩
    · rcases ht with h | h <;> rw [h] <;> exact ⟨by decide, by decide⟩
    · exact ⟨hs.1, fun b hb => isAddr_not_space (hs.2 b hb)⟩
    · exact ⟨hd.1, fun b hb => isAddr_not_space (hd.2 b hb)⟩
    · exact ⟨natDecimal_ne_nil _, fun b hb => isDigit_not_space (natDecimal_all_digits _ b hb)⟩
    · exact ⟨natDecimal_ne_nil _, fun b hb => isDigit_not_space (natDecimal_all_digits _ b hb)⟩
  rw [henc, parseV1_structured _ _ _ _ _ _ _ hfields]
  refine ⟨_, rfl, ?_, ?_, ?_, ?_, ?_⟩
  · exact bytesToString_strBytes _
  · exact bytesToString_strBytes _
  · show sscanfInt (natDecimal info.SourcePort.toNat) = info.SourcePort
    rw [sscanfInt_natDecimal]
    exact Int.toNat_of_nonneg hsp.1
  · show sscanfInt (natDecimal info.DestPort.toNat) = info.DestPort
    rw [sscanfInt_natDecimal]
    exact Int.toNat_of_nonneg hdp.1
  · exact bytesToString_strBytes _

lemma parseV2_encode4 (a1 a2 a3 a4 b1 b2 b3 b4 sp dp : Nat) :
    parseProxyProtocolV2 (encodeProxyProtocolV2IPv4 [a1, a2, a3, a4] [b1, b2, b3, b4] sp dp) =
      .ok ⟨bytesToString (ipv4DottedBytes a1 a2 a3 a4),
           bytesToString (ipv4DottedBytes b1 b2 b3 b4),
           ((sp / 256 * 256 + sp % 256 : Nat) : Int),
           ((dp / 256 * 256 + dp % 256 : Nat) : Int), 2, "TCP4"⟩ := by
  have henc : encodeProxyProtocolV2IPv4 [a1, a2, a3, a4] [b1, b2, b3, b4] sp dp =
      ProxyProtocolV2Prefix ++ 33 :: 17 :: 0 :: 12 ::
        [a1, a2, a3, a4, b1, b2, b3, b4, sp / 256, sp % 256, dp / 256, dp % 256] := rfl
  rw [henc, parseV2_structured]
  rfl

lemma roundTripV2IPv4_aux (info : ProxyProtocolInfo)
    (ht : info.TransportProto = "TCP4")
    (hs : IsCanonicalIPv4 info.SourceAddr) (hd : IsCanonicalIPv4 info.DestAddr)
    (hsp : 0 ≤ info.SourcePort ∧ info.SourcePort < 65536)
    (hdp : 0 ≤ info.DestPort ∧ info.DestPort < 65536) :
    ∃ src dst : List Nat,
      parseProxyProtocolV2 (encodeProxyProtocolV2IPv4 src dst
          info.SourcePort.toNat info.DestPort.toNat) =
        .ok ⟨info.SourceAddr, info.DestAddr, info.SourcePort, info.DestPort, 2,
             info.TransportProto⟩ := by
  obtain ⟨a1, a2, a3, a4, _, _, _, _, hsa⟩ := hs
  obtain ⟨b1, b2, b3, b4, _, _, _, _, hda⟩ := hd
  have hsa2 : info.SourceAddr = bytesToString (ipv4DottedBytes a1 a2 a3 a4) := by
    rw [← hsa, bytesToString_strBytes]
  have hda2 : info.DestAddr = bytesToString (ipv4DottedBytes b1 b2 b3 b4) := by
    rw [← hda, bytesToString_strBytes]
  have hp1 : info.SourcePort =
      ((info.SourcePort.toNat / 256 * 256 + info.SourcePort.toNat % 256 : Nat) : Int) := by
    omega
  have hp2 : info.DestPort =
      ((info.DestPort.toNat / 256 * 256 + info.DestPort.toNat % 256 : Nat) : Int) := by
    omega
  refine ⟨[a1, a2, a3, a4], [b1, b2, b3, b4], ?_⟩
  rw [parseV2_encode4, hsa2, hda2, ht, ← hp1, ← hp2]

lemma list_eq_sixteen (p : List Nat) (h : p.length = 16) :
    ∃ x0 x1 x2 x3 x4 x5 x6 x7 x8 x9 x10 x11 x12 x13 x14 x15,
      p = [x0, x1, x2, x3, x4, x5, x6, x7, x8, x9, x10, x11, x12, x13, x14, x15] := by
  obtain ⟨x0, p, rfl⟩ := List.exists_of_length_succ p h
  replace h : p.length = 15 := by simp at h; omega
  obtain ⟨x1, p, rfl⟩ := List.exists_of_length_succ p h
  replace h : p.length = 14 := by simp at h; omega
  obtain ⟨x2, p, rfl⟩ := List.exists_of_length_succ p h
  replace h : p.length = 13 := by simp at h; omega
  obtain ⟨x3, p, rfl⟩ := List.exists_of_length_succ p h
  replace h : p.length = 12 := by simp at h; omega
  obtain ⟨x4, p, rfl⟩ := List.exists_of_length_succ p h
  replace h : p.length = 11 := by simp at h; omega
  obtain ⟨x5, p, rfl⟩ := List.exists_of_length_succ p h
  replace h : p.length = 10 := by simp at h; omega
  obtain ⟨x6, p, rfl⟩ := List.exists_of_length_succ p h
  replace h : p.length = 9 := by simp at h; omega
  obtain ⟨x7, p, rfl⟩ := List.exists_of_length_succ p h
  replace h : p.length = 8 := by simp at h; omega
  obtain ⟨x8, p, rfl⟩ := List.exists_of_length_succ p h
  replace h : p.length = 7 := by simp at h; omega
  obtain ⟨x9, p, rfl⟩ := List.exists_of_length_succ p h
  replace h : p.length = 6 := by simp at h; omega
  obtain ⟨x10, p, rfl⟩ := List.exists_of_length_succ p h
  replace h : p.length = 5 := by simp at h; omega
  obtain ⟨x11, p, rfl⟩ := List.exists_of_length_succ p h
  replace h : p.length = 4 := by simp at h; omega
  obtain ⟨x12, p, rfl⟩ := List.exists_of_length_succ p h
  replace h : p.length = 3 := by simp at h; omega
  obtain ⟨x13, p, rfl⟩ := List.exists_of_length_succ p h
  replace h : p.length = 2 := by simp at h; omega
  obtain ⟨x14, p, rfl⟩ := List.exists_of_length_succ p h
  replace h : p.length = 1 := by simp at h; omega
  obtain ⟨x15, p, rfl⟩ := List.exists_of_length_succ p h
  replace h : p = [] := by simpa using h
  subst h
  exact ⟨x0, x1, x2, x3, x4, x5, x6, x7, x8, x9, x10, x11, x12, x13, x14, x15, rfl⟩

lemma parseV2_encode6 (s0 s1 s2 s3 s4 s5 s6 s7 s8 s9 s10 s11 s12 s13 s14 s15
    d0 d1 d2 d3 d4 d5 d6 d7 d8 d9 d10 d11 d12 d13 d14 d15 sp dp : Nat) :
    parseProxyProtocolV2 (encodeProxyProtocolV2IPv6
        [s0, s1, s2, s3, s4, s5, s6, s7, s8, s9, s10, s11, s12, s13, s14, s15]
        [d0, d1, d2, d3, d4, d5, d6, d7, d8, d9, d10, d11, d12, d13, d14, d15] sp dp) =
      .ok ⟨bytesToString (ipv6StringBytes
              [s0, s1, s2, s3, s4, s5, s6, s7, s8, s9, s10, s11, s12, s13, s14, s15]),
           bytesToString (ipv6StringBytes
              [d0, d1, d2, d3, d4, d5, d6, d7, d8, d9, d10, d11, d12, d13, d14, d15]),
           ((sp / 256 * 256 + sp % 256 : Nat) : Int),
           ((dp / 256 * 256 + dp % 256 : Nat) : Int), 2, "TCP6"⟩ := by
  have henc : encodeProxyProtocolV2IPv6
      [s0, s1, s2, s3, s4, s5, s6, s7, s8, s9, s10, s11, s12, s13, s14, s15]
      [d0, d1, d2, d3, d4, d5, d6, d7, d8, d9, d10, d11, d12, d13, d14, d15] sp dp =
      ProxyProtocolV2Prefix ++ 33 :: 33 :: 0 :: 36 ::
        [s0, s1, s2, s3, s4, s5, s6, s7, s8, s9, s10, s11, s12, s13, s14, s15,
         d0, d1, d2, d3, d4, d5, d6, d7, d8, d9, d10, d11, d12, d13, d14, d15,
         sp / 256, sp % 256, dp / 256, dp % 256] := rfl
  rw [henc, parseV2_structured]
  rfl

lemma roundTripV2IPv6_aux (info : ProxyProtocolInfo)
    (ht : info.TransportProto = "TCP6")
    (hs : IsCanonicalIPv6 info.SourceAddr) (hd : IsCanonicalIPv6 info.DestAddr)
    (hsp : 0 ≤ info.SourcePort ∧ info.SourcePort < 65536)
    (hdp : 0 ≤ info.DestPort ∧ info.DestPort < 65536) :
    ∃ src dst : List Nat,
      parseProxyProtocolV2 (encodeProxyProtocolV2IPv6 src dst
          info.SourcePort.toNat info.DestPort.toNat) =
        .ok ⟨info.SourceAddr, info.DestAddr, info.SourcePort, info.DestPort, 2,
             info.TransportProto⟩ := by
  obtain ⟨p, hp16, _, hsa⟩ := hs
  obtain ⟨q, hq16, _, hda⟩ := hd
  obtain ⟨s0, s1, s2, s3, s4, s5, s6, s7, s8, s9, s10, s11, s12, s13, s14, s15, rfl⟩ :=
    list_eq_sixteen p hp16
  obtain ⟨d0, d1, d2, d3, d4, d5, d6, d7, d8, d9, d10, d11, d12, d13, d14, d15, rfl⟩ :=
    list_eq_sixteen q hq16
  have hsa2 : info.SourceAddr = bytesToString (ipv6StringBytes
      [s0, s1, s2, s3, s4, s5, s6, s7, s8, s9, s10, s11, s12, s13, s14, s15]) := by
    rw [← hsa, bytesToString_strBytes]
  have hda2 : info.DestAddr = bytesToString (ipv6StringBytes
      [d0, d1, d2, d3, d4, d5, d6, d7, d8, d9, d10, d11, d12, d13, d14, d15]) := by
    rw [← hda, bytesToString_strBytes]
  have hp1 : info.SourcePort =
      ((info.SourcePort.toNat / 256 * 256 + info.SourcePort.toNat % 256 : Nat) : Int) := by
    omega
  have hp2 : info.DestPort =
      ((info.DestPort.toNat / 256 * 256 + info.DestPort.toNat % 256 : Nat) : Int) := by
    omega
  refine ⟨[s0, s1, s2, s3, s4, s5, s6, s7, s8, s9, s10, s11, s12, s13, s14, s15],
    [d0, d1, d2, d3, d4, d5, d6, d7, d8, d9, d10, d11, d12, d13, d14, d15], ?_⟩
  rw [parseV2_encode6, hsa2, hda2, ht, ← hp1, ← hp2]

/-- C2: round trip.  First conjunct: for every endpoint info whose transport
is TCP4 or TCP6, whose addresses are address-literal tokens (digits, hex
digits, ':' and '.', which every well-formed literal of either family is),
and whose ports lie in 0–65535, encoding it as a v1 line and parsing with
`parseProxyProtocolV1` returns an info equal to the original in source and
destination address, source and destination port, and transport.  Second and
third conjuncts: the same for the v2 binary encoding of infos whose
addresses are canonical IPv4 (dotted quad of four bytes) respectively
canonical IPv6 (Go's `net.IP.String` rendering of sixteen bytes) literals:
`parseProxyProtocolV2` returns exactly the original five fields (the binary
source and destination addresses existentially witness the literal's byte
decomposition). -/
theorem c2_round_trip :
    (∀ info : ProxyProtocolInfo,
      info.TransportProto = "TCP4" ∨ info.TransportProto = "TCP6" →
      IsAddressToken info.SourceAddr → IsAddressToken info.DestAddr →
      0 ≤ info.SourcePort ∧ info.SourcePort < 65536 →
      0 ≤ info.DestPort ∧ info.DestPort < 65536 →
      ∃ info', parseProxyProtocolV1 (encodeProxyProtocolV1 info) = .ok info' ∧
        info'.SourceAddr = info.SourceAddr ∧ info'.DestAddr = info.DestAddr ∧
        info'.SourcePort = info.SourcePort ∧ info'.DestPort = info.DestPort ∧
        info'.TransportProto = info.TransportProto) ∧
    (∀ info : ProxyProtocolInfo,
      info.TransportProto = "TCP4" →
      IsCanonicalIPv4 info.SourceAddr → IsCanonicalIPv4 info.DestAddr →
      0 ≤ info.SourcePort ∧ info.SourcePort < 65536 →
      0 ≤ info.DestPort ∧ info.DestPort < 65536 →
      ∃ src dst : List Nat,
        parseProxyProtocolV2 (encodeProxyProtocolV2IPv4 src dst
            info.SourcePort.toNat info.DestPort.toNat) =
          .ok ⟨info.SourceAddr, info.DestAddr, info.SourcePort, info.DestPort, 2,
               info.TransportProto⟩) ∧
    (∀ info : ProxyProtocolInfo,
      info.TransportProto = "TCP6" →
      IsCanonicalIPv6 info.SourceAddr → IsCanonicalIPv6 info.DestAddr →
      0 ≤ info.SourcePort ∧ info.SourcePort < 65536 →
      0 ≤ info.DestPort ∧ info.DestPort < 65536 →
      ∃ src dst : List Nat,
        parseProxyProtocolV2 (encodeProxyProtocolV2IPv6 src dst
            info.SourcePort.toNat info.DestPort.toNat) =
          .ok ⟨info.SourceAddr, info.DestAddr, info.SourcePort, info.DestPort, 2,
               info.TransportProto⟩) :=
  ⟨roundTripV1_aux, roundTripV2IPv4_aux, roundTripV2IPv6_aux⟩

theorem c2_round_trip_witness :
    (∃ info', parseProxyProtocolV1 (encodeProxyProtocolV1
        ⟨"192.0.2.100", "198.51.100.50", 45678, 443, 1, "TCP4"⟩) = .ok info' ∧
      info'.SourceAddr = "192.0.2.100" ∧ info'.DestAddr = "198.51.100.50" ∧
      info'.SourcePort = 45678 ∧ info'.DestPort = 443 ∧
      info'.TransportProto = "TCP4") ∧
    (∃ src dst : List Nat,
      parseProxyProtocolV2 (encodeProxyProtocolV2IPv4 src dst
          (45678 : Int).toNat (443 : Int).toNat) =
        .ok ⟨"192.0.2.100", "198.51.100.50", 45678, 443, 2, "TCP4"⟩) ∧
    (∃ src dst : List Nat,
      parseProxyProtocolV2 (encodeProxyProtocolV2IPv6 src dst
          (12345 : Int).toNat (443 : Int).toNat) =
        .ok ⟨"2001:db8::1", "2001:db8::2", 12345, 443, 2, "TCP6"⟩) :=
  ⟨c2_round_trip.1 ⟨"192.0.2.100", "198.51.100.50", 45678, 443, 1, "TCP4"⟩
      (Or.inl rfl) ⟨by decide, by decide⟩ ⟨by decide, by decide⟩
      ⟨by decide, by decide⟩ ⟨by decide, by decide⟩,
   c2_round_trip.2.1 ⟨"192.0.2.100", "198.51.100.50", 45678, 443, 2, "TCP4"⟩
      rfl ⟨192, 0, 2, 100, by decide, by decide, by decide, by decide, by decide⟩
      ⟨198, 51, 100, 50, by decide, by decide, by decide, by decide, by decide⟩
      ⟨by decide, by decide⟩ ⟨by decide, by decide⟩,
   c2_round_trip.2.2 ⟨"2001:db8::1", "2001:db8::2", 12345, 443, 2, "TCP6"⟩
      rfl ⟨[32, 1, 13, 184, 0, 0, 0, 0, 0, 0, 0, 0, 0, 0, 0, 1], by decide, by decide,
        by decide⟩
      ⟨[32, 1, 13, 184, 0, 0, 0, 0, 0, 0, 0, 0, 0, 0, 0, 2], by decide, by decide,
        by decide⟩
      ⟨by decide, by decide⟩ ⟨by decide, by decide⟩⟩

/-! ## Concrete evaluations mirroring the repository's Go tests -/

example : strBytes "PROXY " = [80, 82, 79, 88, 89, 32] := by decide
example : parseProxyProtocolV1 (strBytes "PROXY TCP4 192.0.2.100 198.51.100.50 45678 443\r\nGET /") =
    .ok ⟨"192.0.2.100", "198.51.100.50", 45678, 443, 1, "TCP4"⟩ := by decide
example : parseProxyProtocolV1 (strBytes "PROXY TCP4 1.2.3.4 5.6.7.8 abc 443\r\n") =
    .ok ⟨"1.2.3.4", "5.6.7.8", 0, 443, 1, "TCP4"⟩ := by decide
example : (parseProxyProtocolV1 (strBytes "PROXY TCP4 192.0.2.1 198.51.100.1\r\n")).isOk = false := by decide
-- v2 IPv4 scenario from the tests: 192.0.2.100:45678 -> 198.51.100.50:443, TLS payload
example : processProxyProtocolData (ProxyProtocolV2Prefix ++ [0x21, 0x11, 0, 12] ++
    [192, 0, 2, 100, 198, 51, 100, 50, 0xB2, 0x6E, 0x01, 0xBB] ++ [0x16, 3, 1, 0, 0xF4]) =
    ⟨some [0x16, 3, 1, 0, 0xF4],
     some ⟨"192.0.2.100", "198.51.100.50", 45678, 443, 2, "TCP4"⟩, none⟩ := by decide
-- v2 IPv6 scenario: 2001:db8::1 / 2001:db8::2
example : parseProxyProtocolV2 (ProxyProtocolV2Prefix ++ [0x21, 0x21, 0, 36] ++
    ([0x20, 0x01, 0x0d, 0xb8] ++ List.replicate 11 0 ++ [1]) ++
    ([0x20, 0x01, 0x0d, 0xb8] ++ List.replicate 11 0 ++ [2]) ++ [0x30, 0x39, 0x01, 0xBB]) =
    .ok ⟨"2001:db8::1", "2001:db8::2", 12345, 443, 2, "TCP6"⟩ := by decide
-- LOCAL command, family/length zero: consumes exactly 16 bytes
example : processProxyProtocolData (ProxyProtocolV2Prefix ++ [0x20, 0, 0, 0]) =
    ⟨some [], some ⟨"", "", 0, 0, 2, "UNKNOWN"⟩, none⟩ := by decide
-- truncated v2: declared length 12 but only 6 bytes follow
example : (processProxyProtocolData (ProxyProtocolV2Prefix ++ [0x21, 0x11, 0, 12] ++
    [192, 0, 2, 100, 198, 51])).err.isSome = true := by decide
-- detection
example : detectProxyProtocol (strBytes "PROXY TCP4 192.0.2.100 198.51.100.50 45678 443\r\nGET /") = true := by decide
example : detectProxyProtocol (strBytes "PROXY TCP4 192.0.2.1") = false := by decide
example : detectProxyProtocol (strBytes "PROXY TCP4 192.0.2.1 198.51.100.1\r\n") = false := by decide
example : detectProxyProtocol (strBytes "GET / HTTP/1.1\r\nHost: x\r\n\r\n") = false := by decide
example : detectProxyProtocol (ProxyProtocolV2Prefix ++ [0x20, 0, 0, 0]) = true := by decide
example : detectProxyProtocol (ProxyProtocolV2Prefix ++ [0x31, 0, 0, 0]) = false := by decide
example : detectProxyProtocol ProxyProtocolV2Prefix = false := by decide
